import Mathlib

/-! Network service discovery: address calculator and discovery engine

A shallow embedding of `src/get-address-information.js`,
`src/get-ipv4-interfaces.js` and `src/network-service-discover.js`.

Conventions of the embedding

* A JavaScript number is `JsNum`: `NaN` or an integer.  Arithmetic is exact
  integer arithmetic, which agrees with IEEE doubles while magnitudes stay at
  or below `2 ^ 53`; a computation that would leave that range, produce a
  fraction or an infinity ends in `Abort.unmodelled`.
* A computation is `Run α = Except Abort α`: it returns a value, raises a
  JavaScript exception (`Abort.raise`), or leaves the embedded fragment
  (`Abort.unmodelled`).
* A JavaScript string is a Lean `String`; the functions that scan one work on
  its list of characters.
* Time is an integer number of milliseconds since the epoch; the local clock
  of the host, which `Date.prototype.setSeconds` works on, is a `Zone`.
* The engine is a state (`Engine`) and one function per source function; a
  run of the program is a list of events (`EngineEvent`) applied to the new
  engine.
-/

namespace Discover

/-! ## Numbers and exceptions -/

/-- A JavaScript number of the integer fragment. -/
inductive JsNum where
  | nan
  | int (v : Int)
deriving DecidableEq, Repr

/-- The exceptions the embedded code can raise. -/
inductive JsError where
  | syntaxError
  | typeError
  | referenceError
deriving DecidableEq, Repr

/-- Why a computation did not return a value. -/
inductive Abort where
  | raise (e : JsError)
  | unmodelled
deriving DecidableEq, Repr

deriving instance DecidableEq for Except

/-- A computation of the embedding. -/
abbrev Run (α : Type) := Except Abort α

/-- Largest magnitude up to which every integer is a double. -/
def maxExact : Int := 9007199254740992

/-- An integer result, kept when double arithmetic computes it exactly. -/
def exact (v : Int) : Run JsNum :=
  if -maxExact ≤ v ∧ v ≤ maxExact then pure (JsNum.int v) else throw Abort.unmodelled

/-- The operator `+` on numbers. -/
def JsNum.add : JsNum → JsNum → Run JsNum
  | JsNum.int a, JsNum.int b => exact (a + b)
  | _, _ => pure JsNum.nan

/-- The operator `-` on numbers. -/
def JsNum.sub : JsNum → JsNum → Run JsNum
  | JsNum.int a, JsNum.int b => exact (a - b)
  | _, _ => pure JsNum.nan

/-- The operator `*` on numbers. -/
def JsNum.mul : JsNum → JsNum → Run JsNum
  | JsNum.int a, JsNum.int b => exact (a * b)
  | _, _ => pure JsNum.nan

/-- The comparison `x <= y` on numbers; false when either side is `NaN`. -/
def JsNum.le : JsNum → JsNum → Bool
  | JsNum.int a, JsNum.int b => decide (a ≤ b)
  | _, _ => false

/-- The comparison `x == y` on numbers; `NaN` equals nothing. -/
def JsNum.eqNum : JsNum → JsNum → Bool
  | JsNum.int a, JsNum.int b => decide (a = b)
  | _, _ => false

/-- The conversion ToUint32: `NaN` becomes 0, an integer is reduced modulo `2 ^ 32`. -/
def toUint32 : JsNum → Nat
  | JsNum.nan => 0
  | JsNum.int v => (v % 4294967296).toNat

/-- The conversion ToInt32: ToUint32 read as a signed 32-bit value. -/
def toInt32 (x : JsNum) : Int :=
  if 2147483648 ≤ toUint32 x then (toUint32 x : Int) - 4294967296 else (toUint32 x : Int)

/-- The operator `x << y`: the shift count is taken modulo 32, the result is a signed 32-bit value. -/
def JsNum.shl (x y : JsNum) : JsNum :=
  JsNum.int (toInt32 (JsNum.int ((toUint32 x * 2 ^ (toUint32 y % 32) : Nat) : Int)))

/-- The operator `x >>> y`: an unsigned shift, the count taken modulo 32. -/
def JsNum.ushr (x y : JsNum) : JsNum :=
  JsNum.int ((toUint32 x / 2 ^ (toUint32 y % 32) : Nat) : Int)

/-- The operator `x & y`; the result is a signed 32-bit value. -/
def JsNum.band (x y : JsNum) : JsNum :=
  JsNum.int (toInt32 (JsNum.int ((toUint32 x &&& toUint32 y : Nat) : Int)))

/-- The operator `~x`. -/
def JsNum.bnot (x : JsNum) : JsNum :=
  JsNum.int (-(toInt32 x) - 1)

/-- The call `Math.pow(2, e)`: an exact power of two for `0 ≤ e ≤ 53`. -/
def pow2 : JsNum → Run JsNum
  | JsNum.nan => pure JsNum.nan
  | JsNum.int e => if 0 ≤ e ∧ e ≤ 53 then pure (JsNum.int (2 ^ e.toNat)) else throw Abort.unmodelled

/-! ## Strings -/

/-- Code points of WhiteSpace and LineTerminator. -/
def whiteSpaceCodes : List Nat :=
  [0x9, 0xA, 0xB, 0xC, 0xD, 0x20, 0xA0, 0x1680, 0x2000, 0x2001, 0x2002, 0x2003, 0x2004,
   0x2005, 0x2006, 0x2007, 0x2008, 0x2009, 0x200A, 0x2028, 0x2029, 0x202F, 0x205F, 0x3000,
   0xFEFF]

/-- Whether a character is white space for `parseInt` and for string-to-number conversion. -/
def isWhiteSpace (c : Char) : Bool := whiteSpaceCodes.contains c.toNat

/-- Whether a character is a decimal digit. -/
def isDecimalDigit (c : Char) : Bool := decide (48 ≤ c.toNat ∧ c.toNat ≤ 57)

/-- The value of a run of decimal digits, most significant first, continuing from `acc`. -/
def digitsValue (acc : Nat) : List Char → Nat
  | [] => acc
  | c :: cs => digitsValue (acc * 10 + (c.toNat - 48)) cs

/-- The method `s.split(sep)` for a one-character separator. -/
def split (sep : Char) : List Char → List (List Char)
  | [] => [[]]
  | c :: cs =>
    if c = sep then [] :: split sep cs
    else
      match split sep cs with
      | [] => [[c]]
      | p :: ps => (c :: p) :: ps

/-- The search of `indexOf` from position `i` on. -/
def indexOfFrom (c : Char) : Nat → List Char → Int
  | _, [] => -1
  | i, x :: xs => if x = c then (i : Int) else indexOfFrom c (i + 1) xs

/-- The method `s.indexOf(c)` for a one-character needle: `-1` when absent. -/
def indexOf (c : Char) (s : List Char) : Int := indexOfFrom c 0 s

/-- An unsigned numeric literal without white space: decimal digits give their value; text
that starts like another literal form (radix prefix, exponent, fraction, `Infinity`) is not
modelled; anything else is `NaN`. -/
def unsignedLiteral (s : List Char) : Run JsNum :=
  match s with
  | [] => pure JsNum.nan
  | c :: _ =>
    if s.all isDecimalDigit then exact (digitsValue 0 s)
    else if isDecimalDigit c ∨ c = '.' ∨ s = "Infinity".data then throw Abort.unmodelled
    else pure JsNum.nan

/-- The conversion of a string to a number, as applied by the operator `*`. -/
def toNumber (s : List Char) : Run JsNum :=
  match ((s.dropWhile isWhiteSpace).reverse.dropWhile isWhiteSpace).reverse with
  | [] => pure (JsNum.int 0)
  | '+' :: r => unsignedLiteral r
  | '-' :: r => do
    match ← unsignedLiteral r with
    | JsNum.int v => pure (JsNum.int (-v))
    | JsNum.nan => pure JsNum.nan
  | r => unsignedLiteral r

/-- The digits read by `parseInt(s, 10)` after white space and sign. -/
def parseIntDigits (s : List Char) : Run JsNum :=
  match s.takeWhile isDecimalDigit with
  | [] => pure JsNum.nan
  | ds => exact (digitsValue 0 ds)

/-- The call `parseInt(s, 10)`. -/
def parseInt (s : List Char) : Run JsNum :=
  match s.dropWhile isWhiteSpace with
  | '+' :: r => parseIntDigits r
  | '-' :: r => do
    match ← parseIntDigits r with
    | JsNum.int v => pure (JsNum.int (-v))
    | JsNum.nan => pure JsNum.nan
  | r => parseIntDigits r

/-- The conversion of an integer-valued number to a string. -/
def numberText : JsNum → List Char
  | JsNum.nan => "NaN".data
  | JsNum.int v => (toString v).data

/-- The method `parts.join(sep)` for a one-character separator. -/
def join (sep : Char) : List (List Char) → List Char
  | [] => []
  | [p] => p
  | p :: q :: ps => p ++ sep :: join sep (q :: ps)

/-! ## get-address-information.js -/

/-- The table `multipliers`. -/
def multipliers : List Int := [0x1000000, 0x10000, 0x100, 1]

/-- The entry `multipliers[i]` as a number: `undefined` converts to `NaN`. -/
def multiplierAt (i : Nat) : JsNum :=
  match multipliers.get? i with
  | some m => JsNum.int m
  | none => JsNum.nan

/-- The loop of `ip2long` over the parts from index `i` on. -/
def ip2longFrom : Nat → JsNum → List (List Char) → Run JsNum
  | _, longValue, [] => pure longValue
  | i, longValue, part :: rest => do
    let p ← toNumber part
    let term ← p.mul (multiplierAt i)
    let next ← longValue.add term
    ip2longFrom (i + 1) next rest

/-- The function `ip2long`. -/
def ip2long (ip : List Char) : Run JsNum :=
  ip2longFrom 0 (JsNum.int 0) (split '.' ip)

/-- One octet of `long2ip`: `Math.floor((longValue % (multiplier * 0x100)) / multiplier)`. -/
def octet (longValue : JsNum) (multiplier : Int) : JsNum :=
  match longValue with
  | JsNum.nan => JsNum.nan
  | JsNum.int v => JsNum.int (Int.tmod v (multiplier * 0x100) / multiplier)

/-- The function `long2ip`. -/
def long2ip (longValue : JsNum) : String :=
  String.mk (join '.' (multipliers.map fun multiplier => numberText (octet longValue multiplier)))

/-- The record returned by the calculator; `none` is `null`. -/
structure AddressInfo where
  address : Option String
  netmask : Option String
  cidr : Option JsNum
  hostmask : Option String
  network : Option String
  «class» : Option String
  broadcast : Option String
  size : Option JsNum
  first : Option String
  last : Option String
deriving DecidableEq, Repr

/-- The canonical mask tested against at loop index `i`: `0xFFFFFFFF << (32 - i) >>> 0`. -/
def canonicalMask (mask_bits : JsNum) : Run JsNum := do
  let shift ← (JsNum.int 32).sub mask_bits
  pure (((JsNum.int 0xFFFFFFFF).shl shift).ushr (JsNum.int 0))

/-- The loop `for (var i = 0; i < 32; i++)` over the remaining indices: the first index whose
canonical mask equals the supplied one, and 0 when there is none. -/
def findMaskBits (long_netmask : JsNum) : List Nat → Run JsNum
  | [] => pure (JsNum.int 0)
  | i :: rest => do
    let canon ← canonicalMask (JsNum.int i)
    if long_netmask.eqNum canon then pure (JsNum.int i) else findMaskBits long_netmask rest

/-- The class letter chosen from `long_ip >>> 24`. -/
def classOf (long_ip : JsNum) : Option String :=
  let firstOcted := long_ip.ushr (JsNum.int 24)
  if firstOcted.le (JsNum.int 127) then some "A"
  else if firstOcted.le (JsNum.int 191) then some "B"
  else if firstOcted.le (JsNum.int 223) then some "C"
  else none

/-- The two branches on `parts[1].indexOf('.') > 0`: `mask_bits` and `long_netmask` from a
dotted netmask, or from a prefix length. -/
def maskOf (part1 : List Char) : Run (JsNum × JsNum) :=
  if indexOf '.' part1 > 0 then do
    let long_netmask ← ip2long part1
    let mask_bits ← findMaskBits long_netmask (List.range 32)
    pure (mask_bits, long_netmask)
  else do
    let mask_bits ← parseInt part1
    let long_netmask ← canonicalMask mask_bits
    pure (mask_bits, long_netmask)

/-- The three conditionals on `mask_bits <= 30`: broadcast, first and last. -/
def hostRange (mask_bits long_network size : JsNum) :
    Run (Option String × String × String) := do
  let top ← (← long_network.add size).sub (JsNum.int 1)
  if mask_bits.le (JsNum.int 30) then do
    let first ← long_network.add (JsNum.int 1)
    let last ← (← long_network.add size).sub (JsNum.int 2)
    pure (some (long2ip top), long2ip first, long2ip last)
  else
    pure (none, long2ip long_network, long2ip top)

/-- The body of `if (parts.length > 1)`: the fields derived from the part after the slash. -/
def withMask (long_ip : JsNum) (address : String) (part1 : List Char) : Run AddressInfo := do
  let mask ← maskOf part1
  let long_network := (long_ip.band mask.2).ushr (JsNum.int 0)
  let size ← pow2 (← (JsNum.int 32).sub mask.1)
  let range ← hostRange mask.1 long_network size
  pure {
    address := some address
    netmask := some (long2ip mask.2)
    cidr := some mask.1
    hostmask := some (long2ip mask.2.bnot)
    network := some (long2ip long_network)
    «class» := classOf long_ip
    broadcast := range.1
    size := some size
    first := some range.2.1
    last := some range.2.2 }

/-- The exported function of `get-address-information.js`; `none` is `null`. -/
def getAddressInformation (address : String) : Run (Option AddressInfo) :=
  if address.data = [] then pure none
  else
    match split '/' address.data with
    | [] => pure none
    | part0 :: more => do
      let long_ip ← if indexOf '.' part0 > 0 then ip2long part0 else parseInt part0
      let text := long2ip long_ip
      match more with
      | [] =>
        pure (some {
          address := some text, netmask := none, cidr := none, hostmask := none,
          network := none, «class» := none, broadcast := none, size := none,
          first := none, last := none })
      | part1 :: _ => do
        let info ← withMask long_ip text part1
        pure (some info)

/-! ## get-ipv4-interfaces.js -/

/-- One address record of `os.networkInterfaces()`, tagged with its interface name; `cidr` is
`null` when the host reports an invalid netmask. -/
structure Interface where
  name : String
  address : String
  netmask : String
  family : String
  internal : Bool
  cidr : Option String
deriving DecidableEq, Repr

/-- The exported function of `get-ipv4-interfaces.js`, over the flattened list of address
records the host reports. -/
def getIpv4Interfaces (allNetworkInterfaces : List Interface) (excludeInternals : Bool) :
    List Interface :=
  allNetworkInterfaces.filter fun iface =>
    decide (iface.family = "IPv4") && !(excludeInternals && iface.internal)

/-! ## JSON payloads -/

/-- A value produced by `JSON.parse`; the numbers of a payload are integers. -/
inductive Json where
  | null
  | bool (b : Bool)
  | num (n : Int)
  | str (s : String)
  | arr (items : List Json)
  | obj (members : List (String × Json))

/-- A JavaScript value read from a payload: `none` is `undefined`. -/
abbrev JsVal := Option Json

/-- The property read `value.key` on a value that is neither `null` nor `undefined`: an own
member of an object, `undefined` on everything else. -/
def Json.get (key : String) : Json → JsVal
  | Json.obj members => members.lookup key
  | _ => none

/-- An inbound datagram, described by what `JSON.parse` makes of its bytes. -/
inductive Datagram where
  | notJson
  | json (data : Json)

/-- The call `JSON.parse(msg)`. -/
def JSON_parse : Datagram → Run Json
  | Datagram.notJson => throw (Abort.raise JsError.syntaxError)
  | Datagram.json data => pure data

/-- The operator `==` between a value of the inbound payload and a value stored from an earlier
one.  Operands of different types, and an object against a primitive, go through the coercion
rules, which are not modelled; two objects from different payloads are never the same object. -/
def looseEq : JsVal → JsVal → Run Bool
  | none, none => pure true
  | none, some Json.null => pure true
  | some Json.null, none => pure true
  | some Json.null, some Json.null => pure true
  | none, some _ => pure false
  | some _, none => pure false
  | some Json.null, some _ => pure false
  | some _, some Json.null => pure false
  | some (Json.bool a), some (Json.bool b) => pure (decide (a = b))
  | some (Json.num a), some (Json.num b) => pure (decide (a = b))
  | some (Json.str a), some (Json.str b) => pure (decide (a = b))
  | some (Json.arr _), some (Json.arr _) => pure false
  | some (Json.arr _), some (Json.obj _) => pure false
  | some (Json.obj _), some (Json.arr _) => pure false
  | some (Json.obj _), some (Json.obj _) => pure false
  | _, _ => throw Abort.unmodelled

/-! ## network-service-discover.js: data -/

/-- A service descriptor of the `service` option. -/
structure ServiceDescriptor where
  name : String
  port : Int
  secure : Bool
  path : String
deriving DecidableEq, Repr

/-- A callback-valued option or argument: a function, or a falsy value such as `null`. -/
inductive Callback where
  | fn (id : Nat)
  | falsy
deriving DecidableEq, Repr

/-- What the engine can observe of the value of an option it does not recognise: whether a
property read on it raises, and whether `0 == value.length` holds. -/
structure ExtraValue where
  nullish : Bool
  lengthIsZero : Bool
deriving DecidableEq, Repr

/-- An options object: the recognised keys with values of their documented types (`none` when
the key is absent) and the other own keys in enumeration order. -/
structure Options where
  port : Option Int
  advertise : Option Int
  purge : Option Int
  scope : Option String
  loopback : Option Bool
  service : Option (List ServiceDescriptor)
  error : Option Callback
  change : Option Callback
  extra : List (String × ExtraValue)
deriving DecidableEq, Repr

/-- The object `{}`. -/
def Options.empty : Options :=
  { port := none, advertise := none, purge := none, scope := none, loopback := none,
    service := none, error := none, change := none, extra := [] }

/-- The object `DEFAULTS`; its two callbacks are the functions numbered 0 and 1. -/
def DEFAULTS : Options :=
  { port := some 1993, advertise := some 10, purge := some 60, scope := some "",
    loopback := some true, service := some [], error := some (Callback.fn 0),
    change := some (Callback.fn 1), extra := [] }

/-- The name of a recognised key when it is present. -/
def keyIf {α : Type} (name : String) (value : Option α) : List String :=
  if value.isSome then [name] else []

/-- The call `Object.keys(o)`. -/
def Options.keys (o : Options) : List String :=
  keyIf "port" o.port ++ keyIf "advertise" o.advertise ++ keyIf "purge" o.purge
    ++ keyIf "scope" o.scope ++ keyIf "loopback" o.loopback ++ keyIf "service" o.service
    ++ keyIf "error" o.error ++ keyIf "change" o.change ++ o.extra.map Prod.fst

/-- The override of one key by `Object.assign`. -/
def over {α : Type} (base override : Option α) : Option α :=
  match override with
  | some v => some v
  | none => base

/-- The call `Object.assign({}, defaults, options)`. -/
def Options.assign (defaults options : Options) : Options :=
  { port := over defaults.port options.port
    advertise := over defaults.advertise options.advertise
    purge := over defaults.purge options.purge
    scope := over defaults.scope options.scope
    loopback := over defaults.loopback options.loopback
    service := over defaults.service options.service
    error := over defaults.error options.error
    change := over defaults.change options.change
    extra := options.extra
      ++ defaults.extra.filter fun d => !((options.extra.map Prod.fst).contains d.1) }

/-- A registry entry built by the receive handler. -/
structure DiscoveredService where
  hostname : JsVal
  service : JsVal
  scope : JsVal
  address : String
  port : JsVal
  path : JsVal
  uptime_os : JsVal
  uptime_proc : JsVal
  last_seen : Int

/-- The object serialized by an advertise tick. -/
structure Announcement where
  hostname : String
  scope : Option String
  uptime_os : Int
  uptime_proc : Int
  service : Option (List ServiceDescriptor)
deriving DecidableEq, Repr

/-- What `os.hostname()`, `os.uptime()` and `process.uptime()` return, the uptimes after
`parseInt`. -/
structure Host where
  hostname : String
  uptime_os : Int
  uptime_proc : Int
deriving DecidableEq, Repr

/-- An error value handed to a callback. -/
inductive ErrorValue where
  | unknownOption (prop : String)
  | runtime (code : Nat)
deriving DecidableEq, Repr

/-- What the engine does to the outside: calls of callbacks and of the socket and timer
interfaces. -/
inductive Effect where
  | startCallback (socket : Option Nat) (err : Option ErrorValue)
  | stopCallback
  | errorCallback (id : Nat) (err : ErrorValue)
  | changeCallback (id : Nat) (services : List DiscoveredService)
  | createSocket (socket : Nat)
  | bind (socket : Nat) (port : Option Int)
  | setBroadcast (socket : Nat)
  | close (socket : Nat)
  | closeThen (socket : Nat) (cb : Callback)
  | setInterval (period : Int)
  | clearInterval (period : Int)
  | send (socket : Nat) (message : Announcement) (port : Option Int) (address : String)

/-- The variables of one `NetworkServiceDiscover()` instance: `opts`, `socket` (a handle),
`timer` (the period in milliseconds of the interval it stands for) and `services`. -/
structure Engine where
  opts : Options
  socket : Option Nat
  timer : Option Int
  services : List DiscoveredService

/-- The instance as `NetworkServiceDiscover()` creates it. -/
def Engine.initial : Engine :=
  { opts := Options.empty, socket := none, timer := none, services := [] }

/-! ## network-service-discover.js: functions -/

/-- The function `_error`: the error callback is called when both the error and the callback
are truthy. -/
def _error (st : Engine) (err : Option ErrorValue) : List Effect :=
  match err, st.opts.error with
  | some e, some (Callback.fn id) => [Effect.errorCallback id e]
  | _, _ => []

/-- The function `_cleanup`, the listener of the socket event `close`. -/
def _cleanup (st : Engine) : Engine × List Effect :=
  ({ st with timer := none, socket := none },
    match st.timer with
    | some period => [Effect.clearInterval period]
    | none => [])

/-- The time zone of the host as `Date` sees it, in milliseconds: `offsetAt t` is the offset
of local time from UTC at the UTC time `t`, and `offsetOfLocal l` is the offset that the
conversion of the local time `l` back to UTC uses (at a daylight-saving change the two differ:
a local time that is skipped or repeated is read with the offset before the change). -/
structure Zone where
  offsetAt : Int → Int
  offsetOfLocal : Int → Int

/-- A zone without offset. -/
def Zone.utc : Zone := { offsetAt := fun _ => 0, offsetOfLocal := fun _ => 0 }

/-- The largest magnitude of a time value; `TimeClip` turns a larger one into an invalid
date. -/
def maxTime : Int := 8640000000000000

/-- The time value of `deadline` after
`deadline.setSeconds(deadline.getSeconds() - opts.purge)` on a date created at `now`:
`setSeconds` takes the local time of `now`, moves its seconds field back by `purge` seconds,
converts the result back to UTC and clips it.  `none` is an invalid date. -/
def deadlineOf (zone : Zone) (now purge : Int) : Option Int :=
  let localTime := now + zone.offsetAt now
  let moved := localTime - 1000 * purge
  let u := moved - zone.offsetOfLocal moved
  if -maxTime ≤ u ∧ u ≤ maxTime then some u else none

/-- The function `_purge` at time `now` on a host in `zone`.  With `opts.purge` undefined, or
with a deadline outside the range of dates, the deadline is an invalid date, every comparison
with it is false and the filter keeps nothing. -/
def _purge (st : Engine) (zone : Zone) (now : Int) : Engine :=
  match st.opts.purge with
  | none => { st with services := [] }
  | some purge =>
    if purge ≤ 0 then st
    else
      match deadlineOf zone now purge with
      | none => { st with services := [] }
      | some deadline =>
        { st with
          services := st.services.filter fun service => decide (deadline < service.last_seen) }

/-- The body of the `forEach` callback of `_sendDatagram` for one interface: the sends it
issues.  A `null` result of the calculator raises on the read of `info.broadcast`. -/
def sendTo (st : Engine) (socket : Nat) (message : Announcement) (iface : Interface) :
    Run (List Effect) :=
  match iface.cidr with
  | none => throw (Abort.raise JsError.typeError)
  | some cidr => do
    match ← getAddressInformation cidr with
    | none => throw (Abort.raise JsError.typeError)
    | some info =>
      match info.broadcast with
      | none => pure []
      | some address =>
        if address.data = [] then pure []
        else pure [Effect.send socket message st.opts.port address]

/-- The `forEach` loop of `_sendDatagram`, interface after interface. -/
def sendAll (st : Engine) (socket : Nat) (message : Announcement) :
    List Interface → Run (List Effect)
  | [] => pure []
  | iface :: rest => do
    let sent ← sendTo st socket message iface
    let more ← sendAll st socket message rest
    pure (sent ++ more)

/-- The function `_sendDatagram`, one advertise tick at time `now`.  The guard reads
`opts.services`, a key that `DEFAULTS` does not have (the service list is `opts.service`):
the read of `.length` raises when that key is absent. -/
def _sendDatagram (st : Engine) (host : Host) (zone : Zone)
    (allNetworkInterfaces : List Interface) (now : Int) : Run (Engine × List Effect) :=
  match st.socket with
  | none => pure (st, [])
  | some socket =>
    match st.opts.extra.lookup "services" with
    | none => throw (Abort.raise JsError.typeError)
    | some services =>
      if services.nullish then throw (Abort.raise JsError.typeError)
      else if services.lengthIsZero then pure (st, [])
      else do
        let message : Announcement :=
          { hostname := host.hostname, scope := st.opts.scope, uptime_os := host.uptime_os,
            uptime_proc := host.uptime_proc, service := st.opts.service }
        let excludeInternals :=
          match st.opts.loopback with
          | some loopback => !loopback
          | none => true
        let interfaces := getIpv4Interfaces allNetworkInterfaces excludeInternals
        let sent ← sendAll st socket message interfaces
        pure (_purge st zone now, sent)

/-- The function `_socketError`, the listener of the socket event `error`. -/
def _socketError (st : Engine) (err : ErrorValue) : Run (Engine × List Effect) :=
  match st.socket with
  | none => throw (Abort.raise JsError.typeError)
  | some socket => pure (st, Effect.close socket :: _error st (some err))

/-- The callback of `data.service.map` for one element: a `null` element raises on the read
of `svc.name`. -/
def receivedService (data : Json) (address : String) (now : Int) : Json → Run DiscoveredService
  | Json.null => throw (Abort.raise JsError.typeError)
  | svc =>
    pure {
      hostname := data.get "hostname"
      service := svc.get "name"
      scope := data.get "scope"
      address := address
      port := svc.get "port"
      path := svc.get "path"
      uptime_os := data.get "uptime_os"
      uptime_proc := data.get "uptime_proc"
      last_seen := now }

/-- The `map` over the elements of `data.service`. -/
def receivedAll (data : Json) (address : String) (now : Int) :
    List Json → Run (List DiscoveredService)
  | [] => pure []
  | svc :: rest => do
    let entry ← receivedService data address now svc
    let more ← receivedAll data address now rest
    pure (entry :: more)

/-- The expression `data.service.map(...)`: a `null` payload raises on the read of
`data.service`, and a `service` member that is not an array has no callable `map`. -/
def received (data : Json) (address : String) (now : Int) : Run (List DiscoveredService) :=
  match data with
  | Json.null => throw (Abort.raise JsError.typeError)
  | _ =>
    match data.get "service" with
    | some (Json.arr items) => receivedAll data address now items
    | _ => throw (Abort.raise JsError.typeError)

/-- The read of the identifier `service` on line 166 (`serviceCount = service.length`).  No
scope of the module declares `service` (the registry variable is `services`, and the parameter
`service` of the filter callback in `_purge` is local to that callback), so the read raises
a ReferenceError. -/
def serviceLength : Run Nat :=
  throw (Abort.raise JsError.referenceError)

/-- The test of the inner filter: whether a received entry has the key of a known one. -/
def sameKey (received_service known_service : DiscoveredService) : Run Bool :=
  if received_service.address = known_service.address then
    looseEq received_service.service known_service.service
  else pure false

/-- The inner filter: the received entries that have the key of a known one. -/
def matching (known_service : DiscoveredService) :
    List DiscoveredService → Run (List DiscoveredService)
  | [] => pure []
  | received_service :: rest => do
    let hit ← sameKey received_service known_service
    let more ← matching known_service rest
    pure (if hit then received_service :: more else more)

/-- The outer filter: the known entries whose key no received entry has. -/
def unmatched (received : List DiscoveredService) :
    List DiscoveredService → Run (List DiscoveredService)
  | [] => pure []
  | known_service :: rest => do
    let hits ← matching known_service received
    let more ← unmatched received rest
    pure (if hits.length = 0 then known_service :: more else more)

/-- The function `_socketMessage`, the listener of the socket event `message`, for a datagram
from `address` at time `now`. -/
def _socketMessage (st : Engine) (zone : Zone) (msg : Datagram) (address : String)
    (now : Int) : Run (Engine × List Effect) := do
  let data ← JSON_parse msg
  let received ← received data address now
  let serviceCount ← serviceLength
  let kept ← unmatched received st.services
  let st1 : Engine := { st with services := kept ++ received }
  let changed := decide (st1.services.length ≠ serviceCount)
  let st2 := _purge st1 zone now
  let changed := changed || decide (st2.services.length ≠ serviceCount)
  match changed, st2.opts.change with
  | true, some (Callback.fn id) => pure (st2, [Effect.changeCallback id st2.services])
  | _, _ => pure (st2, [])

/-- The call `cb && cb(socket, err)`. -/
def callStart (cb : Callback) (socket : Option Nat) (err : Option ErrorValue) : List Effect :=
  match cb with
  | Callback.fn _ => [Effect.startCallback socket err]
  | Callback.falsy => []

/-- The statement `if (opts.advertise < 5000) opts.advertise = 5000`. -/
def clampAdvertise (opts : Options) : Options :=
  match opts.advertise with
  | some advertise => if advertise < 5000 then { opts with advertise := some 5000 } else opts
  | none => opts

/-- The synchronous part of `start(options, cb)`; `fresh` is the handle of the socket that
`dgram.createSocket` returns.  The `return` after the report of an unknown key leaves the
`forEach` callback only, so the function goes on to the merge and to the socket. -/
def start (st : Engine) (options : Options) (cb : Callback) (fresh : Nat) :
    Engine × List Effect :=
  match st.socket with
  | some _ => (st, [])
  | none =>
    let knownProperties := DEFAULTS.keys
    let unknown := options.keys.filter fun prop => !knownProperties.contains prop
    let reports := unknown.map fun prop =>
      callStart cb none (some (ErrorValue.unknownOption prop))
    let opts := clampAdvertise (Options.assign DEFAULTS options)
    ({ st with opts := opts, socket := some fresh },
      reports.flatten ++ [Effect.createSocket fresh, Effect.bind fresh opts.port])

/-- The callback that `start` passes to `socket.bind`, called with the bind error or
without one. -/
def bindDone (st : Engine) (cb : Callback) (err : Option ErrorValue) :
    Run (Engine × List Effect) :=
  match st.socket with
  | none => throw (Abort.raise JsError.typeError)
  | some socket =>
    match err with
    | some e => pure (st, Effect.close socket :: callStart cb none (some e))
    | none =>
      match st.opts.advertise with
      | some advertise =>
        if advertise > 0 then
          pure ({ st with timer := some (1000 * advertise) },
            [Effect.setBroadcast socket, Effect.setInterval (1000 * advertise)]
              ++ callStart cb (some socket) none)
        else pure (st, Effect.setBroadcast socket :: callStart cb (some socket) none)
      | none => pure (st, Effect.setBroadcast socket :: callStart cb (some socket) none)

/-- The function `stop(cb)`: it asks an open socket to close, handing it the function that
calls `cb`, and does nothing else; without a socket it does nothing at all. -/
def stop (st : Engine) (cb : Callback) : Engine × List Effect :=
  match st.socket with
  | some socket => (st, [Effect.closeThen socket cb])
  | none => (st, [])

/-- The socket event `close` after `stop(cb)`: `_cleanup`, then the function given to
`socket.close`, which calls `cb` when it is truthy. -/
def closed (st : Engine) (cb : Callback) : Engine × List Effect :=
  ((_cleanup st).1,
    (_cleanup st).2 ++
      match cb with
      | Callback.fn _ => [Effect.stopCallback]
      | Callback.falsy => [])

/-- The function `getServices` at time `now`: the engine after the purge and the list
returned. -/
def getServices (st : Engine) (zone : Zone) (now : Int) : Engine × List DiscoveredService :=
  ((_purge st zone now), (_purge st zone now).services)

/-! ## The registry as a transition system -/

/-- A step that touches the registry: an inbound datagram, a purge, a call of `getServices`. -/
inductive RegistryStep where
  | receive (msg : Datagram) (address : String) (now : Int)
  | purge (now : Int)
  | getServices (now : Int)

/-- The engine after one registry step.  A listener that raises has assigned nothing: in
`_socketMessage` every assignment to an engine variable comes after the last statement that
can raise. -/
def RegistryStep.run (zone : Zone) (st : Engine) : RegistryStep → Engine
  | RegistryStep.receive msg address now =>
    match _socketMessage st zone msg address now with
    | Except.ok result => result.1
    | Except.error _ => st
  | RegistryStep.purge now => _purge st zone now
  | RegistryStep.getServices now => (Discover.getServices st zone now).1

/-- The engine after a sequence of registry steps. -/
def runSteps (zone : Zone) (st : Engine) (steps : List RegistryStep) : Engine :=
  steps.foldl (RegistryStep.run zone) st

/-! ## The engine as a transition system -/

/-- An event in the life of one engine: a call of one of its three functions, or the runtime
calling one of the functions the engine handed to it (the bind callback, the interval
function, the listeners of `message`, `error` and `close`).  `getServices` ends in
`return services`: the caller receives the registry array itself, not a copy, so elements
that the caller appends to the returned array are elements of the registry; `extend` is a call
of `getServices` whose caller then appends `entries` to the array it got. -/
inductive EngineEvent where
  | start (options : Options) (cb : Callback) (fresh : Nat)
  | bindDone (cb : Callback) (err : Option ErrorValue)
  | tick (host : Host) (allNetworkInterfaces : List Interface) (now : Int)
  | message (msg : Datagram) (address : String) (now : Int)
  | socketError (err : ErrorValue)
  | getServices (now : Int)
  | extend (now : Int) (entries : List DiscoveredService)
  | stop (cb : Callback)
  | closed (cb : Callback)

/-- The engine after a function that may raise: a raise leaves the engine variables as they
were, since in each such function the assignments follow the last statement that can raise. -/
def afterRun (st : Engine) (r : Run (Engine × List Effect)) : Engine :=
  match r with
  | Except.ok result => result.1
  | Except.error _ => st

/-- The engine after one event. -/
def EngineEvent.run (zone : Zone) (st : Engine) : EngineEvent → Engine
  | EngineEvent.start options cb fresh => (Discover.start st options cb fresh).1
  | EngineEvent.bindDone cb err => afterRun st (Discover.bindDone st cb err)
  | EngineEvent.tick host allNetworkInterfaces now =>
    afterRun st (_sendDatagram st host zone allNetworkInterfaces now)
  | EngineEvent.message msg address now => afterRun st (_socketMessage st zone msg address now)
  | EngineEvent.socketError err => afterRun st (_socketError st err)
  | EngineEvent.getServices now => (Discover.getServices st zone now).1
  | EngineEvent.extend now entries =>
    { (Discover.getServices st zone now).1 with
      services := (Discover.getServices st zone now).2 ++ entries }
  | EngineEvent.stop cb => (Discover.stop st cb).1
  | EngineEvent.closed cb => (Discover.closed st cb).1

/-- The engine after a sequence of events. -/
def runEvents (zone : Zone) (st : Engine) (events : List EngineEvent) : Engine :=
  events.foldl (EngineEvent.run zone) st

/-! ## Sample inputs -/

/-- An announcement of host `alpha` that lists the service `web` once. -/
def announcementWeb (port : Int) : Json :=
  Json.obj [("hostname", Json.str "alpha"), ("scope", Json.str ""), ("uptime_os", Json.num 100),
    ("uptime_proc", Json.num 5),
    ("service", Json.arr [Json.obj [("name", Json.str "web"), ("port", Json.num port),
      ("secure", Json.bool false), ("path", Json.str "/")]])]

/-- An announcement that lists the service `web` twice. -/
def announcementTwice : Json :=
  Json.obj [("hostname", Json.str "alpha"), ("scope", Json.str ""), ("uptime_os", Json.num 100),
    ("uptime_proc", Json.num 5),
    ("service", Json.arr [
      Json.obj [("name", Json.str "web"), ("port", Json.num 80), ("path", Json.str "/")],
      Json.obj [("name", Json.str "web"), ("port", Json.num 81), ("path", Json.str "/")]])]

/-- An entry of host `alpha` last seen at `last_seen`. -/
def entryAt (last_seen : Int) : DiscoveredService :=
  { hostname := some (Json.str "alpha"), service := some (Json.str "web"),
    scope := some (Json.str ""), address := "10.0.0.1", port := some (Json.num 80),
    path := some (Json.str "/"), uptime_os := some (Json.num 100),
    uptime_proc := some (Json.num 5), last_seen := last_seen }

/-- An engine with the default options and the given registry. -/
def engineWith (services : List DiscoveredService) : Engine :=
  { opts := DEFAULTS, socket := some 1, timer := some 5000000, services := services }

/-- The options `{ service: [web] }`. -/
def optionsWeb : Options :=
  { Options.empty with
    service := some [{ name := "web", port := 8080, secure := false, path := "/" }] }

/-- The options `{ bogusKey: 1 }`. -/
def optionsBogus : Options :=
  { Options.empty with extra := [("bogusKey", { nullish := false, lengthIsZero := false })] }

/-- The options `{ advertise: 1 }`. -/
def optionsAdvertise (advertise : Int) : Options :=
  { Options.empty with advertise := some advertise }

/-- The engine after `start(options, cb)` on a new instance and a successful bind. -/
def runningWith (options : Options) : Engine :=
  match bindDone (start Engine.initial options (Callback.fn 7) 1).1 (Callback.fn 7) none with
  | Except.ok result => result.1
  | Except.error _ => Engine.initial

/-- An interface `eth0` with address 192.168.1.10/24. -/
def eth0 : Interface :=
  { name := "eth0", address := "192.168.1.10", netmask := "255.255.255.0", family := "IPv4",
    internal := false, cidr := some "192.168.1.10/24" }

/-- A host description. -/
def hostAlpha : Host := { hostname := "alpha", uptime_os := 100, uptime_proc := 5 }

/-- A run of a new engine: `start({ service: [web] }, cb)`, a successful bind, and a call of
`getServices` at time `seen` to whose result the caller appends an entry last seen then. -/
def runWithEntry (seen : Int) : List EngineEvent :=
  [EngineEvent.start optionsWeb (Callback.fn 7) 1, EngineEvent.bindDone (Callback.fn 7) none,
    EngineEvent.extend seen [entryAt seen]]

/-- A host whose clocks go forward by one hour at time 0: the local times of the skipped hour
are read with the offset before the change. -/
def zoneForward : Zone :=
  { offsetAt := fun t => if t < 0 then 0 else 3600000
    offsetOfLocal := fun t => if t < 3600000 then 0 else 3600000 }

/-- A host whose clocks go back by one hour at time 0: the local times of the repeated hour
are read with the offset before the change. -/
def zoneBack : Zone :=
  { offsetAt := fun t => if t < 0 then 3600000 else 0
    offsetOfLocal := fun t => if t < 3600000 then 3600000 else 0 }

/-- The text of the dotted quad with octets `a`, `b`, `c`, `d`. -/
def dottedQuad (a b c d : Nat) : String :=
  toString a ++ "." ++ toString b ++ "." ++ toString c ++ "." ++ toString d

/-- The 32-bit value of the dotted quad with octets `a`, `b`, `c`, `d`. -/
def quadValue (a b c d : Nat) : Nat := a * 16777216 + b * 65536 + c * 256 + d

/-- The dotted quad of a 32-bit value. -/
def quadOf (v : Nat) : String :=
  dottedQuad (v / 16777216 % 256) (v / 65536 % 256) (v / 256 % 256) (v % 256)

/-- The class of a first octet as the comment in the source states it: A for 0-127, B for
128-191, C for 192-223, none above. -/
def classOfOctet (first : Nat) : Option String :=
  if first ≤ 127 then some "A"
  else if first ≤ 191 then some "B"
  else if first ≤ 223 then some "C"
  else none

/-- The 33 contiguous masks: `n` leading one bits among 32, for `n` from 0 to 32. -/
def contiguousMasks : List Nat :=
  (List.range 33).map fun n => 4294967296 - 2 ^ (32 - n)

/-- The value of `0xFFFFFFFF << (32 - n) >>> 0` for a prefix length `n` from 0 to 32, the
shift count being taken modulo 32: all ones at 0, and `n` leading one bits otherwise. -/
def prefixMask (n : Nat) : Nat :=
  if n = 0 then 4294967295 else 4294967296 - 2 ^ (32 - n)

/-- The calculator applied to `address/n`, then to `address/` followed by the netmask that
the first call returned. -/
def feedBack (address n : String) : Run (Option AddressInfo) := do
  match ← getAddressInformation (address ++ "/" ++ n) with
  | none => pure none
  | some info =>
    match info.netmask with
    | none => pure none
    | some netmask => getAddressInformation (address ++ "/" ++ netmask)

/-- The record with the address field alone set. -/
def addressOnly (text : String) : AddressInfo :=
  { address := some text, netmask := none, cidr := none, hostmask := none, network := none,
    «class» := none, broadcast := none, size := none, first := none, last := none }

/-- The record of 192.168.1.10 with the mask 255.255.255.0. -/
def record192 : AddressInfo :=
  { address := some "192.168.1.10", netmask := some "255.255.255.0", cidr := some (JsNum.int 24),
    hostmask := some "0.0.0.255", network := some "192.168.1.0", «class» := some "C",
    broadcast := some "192.168.1.255", size := some (JsNum.int 256),
    first := some "192.168.1.1", last := some "192.168.1.254" }

/-! ## The receive handler never returns -/

theorem receivedAll_result (data : Json) (address : String) (now : Int) (items : List Json) :
    (∃ entries, receivedAll data address now items = Except.ok entries)
      ∨ receivedAll data address now items = Except.error (Abort.raise JsError.typeError) := by
  induction items with
  | nil => exact Or.inl ⟨[], rfl⟩
  | cons svc rest ih =>
    rcases ih with ⟨entries, h⟩ | h
    · cases svc
      case null => exact Or.inr rfl
      all_goals
        left
        simp [receivedAll, receivedService, h, bind, Except.bind, pure, Except.pure]
    · cases svc
      case null => exact Or.inr rfl
      all_goals
        right
        simp [receivedAll, receivedService, h, bind, Except.bind, pure, Except.pure]

theorem received_result (data : Json) (address : String) (now : Int) :
    (∃ entries, received data address now = Except.ok entries)
      ∨ received data address now = Except.error (Abort.raise JsError.typeError) := by
  unfold received
  split
  · exact Or.inr rfl
  · split
    · exact receivedAll_result _ _ _ _
    · exact Or.inr rfl

theorem socketMessage_raises (st : Engine) (zone : Zone) (msg : Datagram) (address : String)
    (now : Int) :
    ∃ e, _socketMessage st zone msg address now = Except.error (Abort.raise e) := by
  cases msg with
  | notJson => exact ⟨JsError.syntaxError, rfl⟩
  | json data =>
    rcases received_result data address now with ⟨entries, h⟩ | h
    · exact ⟨JsError.referenceError, by
        simp [_socketMessage, JSON_parse, h, serviceLength, bind, Except.bind, pure, Except.pure,
          throw, throwThe, MonadExceptOf.throw]⟩
    · exact ⟨JsError.typeError, by
        simp [_socketMessage, JSON_parse, h, bind, Except.bind, pure, Except.pure]⟩

theorem receive_keeps_engine (st : Engine) (zone : Zone) (msg : Datagram) (address : String)
    (now : Int) :
    RegistryStep.run zone st (RegistryStep.receive msg address now) = st := by
  obtain ⟨e, h⟩ := socketMessage_raises st zone msg address now
  simp [RegistryStep.run, h]

theorem purge_of_empty (st : Engine) (zone : Zone) (now : Int) (h : st.services = []) :
    (_purge st zone now).services = [] := by
  unfold _purge
  split
  · rfl
  · split
    · exact h
    · split
      · rfl
      · simp [h]

theorem run_keeps_empty (zone : Zone) (st : Engine) (step : RegistryStep)
    (h : st.services = []) :
    (RegistryStep.run zone st step).services = [] := by
  cases step with
  | receive msg address now => rw [receive_keeps_engine]; exact h
  | purge now => exact purge_of_empty st zone now h
  | getServices now => exact purge_of_empty st zone now h

theorem runSteps_keeps_empty (zone : Zone) (steps : List RegistryStep) (st : Engine)
    (h : st.services = []) :
    (runSteps zone st steps).services = [] := by
  induction steps generalizing st with
  | nil => exact h
  | cons step rest ih => exact ih (RegistryStep.run zone st step) (run_keeps_empty zone st step h)

/-! ## Registry claims -/

/-- C1: a datagram from 10.0.0.1 whose service list names `web` twice makes the receive
handler raise a ReferenceError (the read of `service.length`), so the datagram is not stored
and the registry is empty after the receive and a `getServices` step; and the replacement
that the handler would go on to (lines 170-175: the known entries without a received key,
followed by all received entries) gives, for this datagram on the empty registry, two entries
with the key (10.0.0.1, web). -/
theorem twice_named_service_not_merged :
    _socketMessage Engine.initial Zone.utc (Datagram.json announcementTwice) "10.0.0.1" 1000
        = Except.error (Abort.raise JsError.referenceError)
    ∧ (runSteps Zone.utc Engine.initial
        [RegistryStep.receive (Datagram.json announcementTwice) "10.0.0.1" 1000,
          RegistryStep.getServices 2000]).services = []
    ∧ ∃ arrived kept, received announcementTwice "10.0.0.1" 1000 = Except.ok arrived
        ∧ unmatched arrived Engine.initial.services = Except.ok kept
        ∧ (kept ++ arrived).length = 2
        ∧ ¬ (kept ++ arrived).Pairwise
            (fun e f => ¬ (e.address = f.address ∧ e.service = f.service)) := by
  refine ⟨rfl, rfl, _, [], rfl, rfl, rfl, ?_⟩
  intro h
  exact (List.pairwise_cons.mp h).1 _ (List.mem_singleton.mpr rfl) ⟨rfl, rfl⟩

/-- C2: at two well-formed announcements of the service `web` from 10.0.0.1 the receive
handler raises a ReferenceError each time (the read of `service.length`), and the registry
still is empty after both: no entry is stored under the key, so none carries the fields of
the second announcement. -/
theorem repeated_announcement_stores_nothing :
    _socketMessage Engine.initial Zone.utc (Datagram.json (announcementWeb 80)) "10.0.0.1" 1000
        = Except.error (Abort.raise JsError.referenceError)
    ∧ _socketMessage Engine.initial Zone.utc (Datagram.json (announcementWeb 81)) "10.0.0.1"
        2000 = Except.error (Abort.raise JsError.referenceError)
    ∧ (runSteps Zone.utc Engine.initial
        [RegistryStep.receive (Datagram.json (announcementWeb 80)) "10.0.0.1" 1000,
          RegistryStep.receive (Datagram.json (announcementWeb 81)) "10.0.0.1" 2000]).services
        = [] :=
  ⟨rfl, rfl, rfl⟩

/-- C3, as stated, fails: after `start`, a successful bind and a call of `getServices` at
time 0 to whose result the caller appended an entry last seen at time 0, on a host without
offset, the entry has at time 60000 an age equal to the purge window of 60 seconds, so it
satisfies `now - lastSeen ≤ w`, and `getServices` does not return it. -/
theorem purge_keeps_boundary_refuted :
    ¬ ∀ (zone : Zone) (events : List EngineEvent) (now w : Int),
        (runEvents zone Engine.initial events).opts.purge = some w → 0 < w →
        ∀ e ∈ (runEvents zone Engine.initial events).services, now - e.last_seen ≤ 1000 * w →
          e ∈ (getServices (runEvents zone Engine.initial events) zone now).2 := by
  intro h
  have hmem := h Zone.utc (runWithEntry 0) 60000 60 rfl (by decide) (entryAt 0)
    (List.mem_singleton.mpr rfl) (by decide)
  have hnil : (getServices (runEvents Zone.utc Engine.initial (runWithEntry 0)) Zone.utc
      60000).2 = [] := rfl
  rw [hnil] at hmem
  exact List.not_mem_nil _ hmem

theorem deadlineOf_steady (zone : Zone) (now w : Int)
    (hsame : zone.offsetOfLocal (now + zone.offsetAt now - 1000 * w) = zone.offsetAt now)
    (hlow : -maxTime ≤ now - 1000 * w) (hhigh : now - 1000 * w ≤ maxTime) :
    deadlineOf zone now w = some (now - 1000 * w) := by
  have hval : now + zone.offsetAt now - 1000 * w - zone.offsetAt now = now - 1000 * w := by
    ring
  simp only [deadlineOf, hsame, hval, hlow, hhigh, and_self, if_true]

/-- C3, amended: with a purge window of `w` seconds and times in milliseconds, for `w > 0`,
when the local-time offset used for the deadline equals the offset at `now` (no change of the
offset, such as a daylight-saving change, falls between them) and the deadline is in the range
of dates, the purge step keeps, in their order, exactly the entries with
`now - lastSeen < 1000 * w`, and `getServices` returns that list, so every entry it returns
is younger than the window; for `w ≤ 0` the purge step changes nothing. -/
theorem purge_keeps_younger_than_window (st : Engine) (zone : Zone) (now w : Int)
    (hw : st.opts.purge = some w) :
    (0 < w →
      zone.offsetOfLocal (now + zone.offsetAt now - 1000 * w) = zone.offsetAt now →
      -maxTime ≤ now - 1000 * w → now - 1000 * w ≤ maxTime →
      (_purge st zone now).services
          = st.services.filter (fun e => decide (now - e.last_seen < 1000 * w))
        ∧ (getServices st zone now).2 = (_purge st zone now).services
        ∧ ∀ e ∈ (getServices st zone now).2,
            e ∈ st.services ∧ now - e.last_seen < 1000 * w)
    ∧ (w ≤ 0 → _purge st zone now = st ∧ (getServices st zone now).2 = st.services) := by
  constructor
  · intro hpos hsame hlow hhigh
    have hfilter : (_purge st zone now).services
        = st.services.filter (fun e => decide (now - e.last_seen < 1000 * w)) := by
      have hnot : ¬ w ≤ 0 := not_le.mpr hpos
      simp only [_purge, hw, hnot, if_false, deadlineOf_steady zone now w hsame hlow hhigh]
      apply List.filter_congr
      intro e _
      simp only [decide_eq_decide]
      constructor <;> intro hlt <;> linarith
    refine ⟨hfilter, rfl, ?_⟩
    intro e he
    have he2 : e ∈ (_purge st zone now).services := he
    rw [hfilter, List.mem_filter] at he2
    exact ⟨he2.1, by simpa using he2.2⟩
  · intro hle
    have hst : _purge st zone now = st := by simp [_purge, hw, hle]
    exact ⟨hst, by simp [getServices, hst]⟩

theorem purge_keeps_younger_than_window_witness :
    (runEvents Zone.utc Engine.initial (runWithEntry 1)).opts.purge = some 60
    ∧ (runEvents Zone.utc Engine.initial (runWithEntry 1)).services = [entryAt 1]
    ∧ (_purge (runEvents Zone.utc Engine.initial (runWithEntry 1)) Zone.utc 60000).services
        = (runEvents Zone.utc Engine.initial (runWithEntry 1)).services.filter
            (fun e => decide (60000 - e.last_seen < 1000 * 60))
    ∧ ∀ e ∈ (getServices (runEvents Zone.utc Engine.initial (runWithEntry 1)) Zone.utc 60000).2,
        e ∈ (runEvents Zone.utc Engine.initial (runWithEntry 1)).services
          ∧ 60000 - e.last_seen < 1000 * 60 :=
  have h := (purge_keeps_younger_than_window
    (runEvents Zone.utc Engine.initial (runWithEntry 1)) Zone.utc 60000 60 rfl).1
    (by decide) rfl (by decide) (by decide)
  ⟨rfl, rfl, h.1, h.2.2⟩

/-- Around a change of the local-time offset the deadline of the purge step is not
`now - 1000 * w`: one second after the clocks went forward, an entry one second old is
removed, and one second after the clocks went back, an entry 3600 seconds old is kept. -/
theorem purge_across_offset_change :
    (runEvents zoneForward Engine.initial (runWithEntry 0)).services = [entryAt 0]
    ∧ deadlineOf zoneForward 1000 60 = some 3541000
    ∧ (getServices (runEvents zoneForward Engine.initial (runWithEntry 0)) zoneForward 1000).2
        = []
    ∧ (runEvents zoneBack Engine.initial (runWithEntry (-3599000))).services
        = [entryAt (-3599000)]
    ∧ deadlineOf zoneBack 1000 60 = some (-3659000)
    ∧ (getServices (runEvents zoneBack Engine.initial (runWithEntry (-3599000))) zoneBack
        1000).2 = [entryAt (-3599000)] :=
  ⟨rfl, rfl, rfl, rfl, rfl, rfl⟩

/-! ## Start, advertise and malformed datagrams -/

/-- C7: on an idle engine, `start` with a configuration that has a key outside the recognised
set reports the key to a given start callback and nevertheless creates the socket: the engine
holds the new socket afterwards and the effects contain `createSocket`, so the configuration
is not rejected. -/
theorem start_unknown_key_opens_socket (st : Engine) (options : Options) (cb : Callback)
    (fresh : Nat) (prop : String) (hidle : st.socket = none) (hmem : prop ∈ options.keys)
    (hunknown : prop ∉ DEFAULTS.keys) :
    (start st options cb fresh).1.socket = some fresh
    ∧ Effect.createSocket fresh ∈ (start st options cb fresh).2
    ∧ (∀ id, cb = Callback.fn id →
        Effect.startCallback none (some (ErrorValue.unknownOption prop))
          ∈ (start st options cb fresh).2) := by
  refine ⟨by simp [start, hidle], by simp [start, hidle], ?_⟩
  intro id hcb
  have hfilter : prop ∈ options.keys.filter fun p => !DEFAULTS.keys.contains p := by
    rw [List.mem_filter]
    refine ⟨hmem, ?_⟩
    simpa using hunknown
  simp only [start, hidle, hcb, callStart, List.mem_append, List.mem_flatten, List.mem_map]
  left
  exact ⟨[Effect.startCallback none (some (ErrorValue.unknownOption prop))],
    ⟨prop, hfilter, rfl⟩, List.mem_singleton.mpr rfl⟩

theorem start_unknown_key_opens_socket_witness :
    Engine.initial.socket = none ∧ "bogusKey" ∈ optionsBogus.keys ∧ "bogusKey" ∉ DEFAULTS.keys
    ∧ (start Engine.initial optionsBogus (Callback.fn 7) 1).1.socket = some 1
    ∧ Effect.createSocket 1 ∈ (start Engine.initial optionsBogus (Callback.fn 7) 1).2
    ∧ Effect.startCallback none (some (ErrorValue.unknownOption "bogusKey"))
        ∈ (start Engine.initial optionsBogus (Callback.fn 7) 1).2 :=
  have h := start_unknown_key_opens_socket Engine.initial optionsBogus (Callback.fn 7) 1
    "bogusKey" rfl (by decide) (by decide)
  ⟨rfl, by decide, by decide, h.1, h.2.1, h.2.2 7 rfl⟩

theorem start_advertise (st : Engine) (options : Options) (cb : Callback) (fresh : Nat)
    (hidle : st.socket = none) :
    (start st options cb fresh).1.socket = some fresh
    ∧ (start st options cb fresh).1.opts.advertise
        = some (max (options.advertise.getD 10) 5000) := by
  refine ⟨by simp [start, hidle], ?_⟩
  cases hadv : options.advertise with
  | none => simp [start, hidle, clampAdvertise, Options.assign, over, DEFAULTS, hadv]
  | some a =>
    by_cases ha : a < 5000
    · simp [start, hidle, clampAdvertise, Options.assign, over, DEFAULTS, hadv, ha,
        max_eq_right (le_of_lt ha)]
    · simp [start, hidle, clampAdvertise, Options.assign, over, DEFAULTS, hadv, ha,
        max_eq_left (not_lt.mp ha)]

theorem bindDone_schedules (st : Engine) (cb : Callback) (socket : Nat) (a : Int)
    (hsocket : st.socket = some socket) (hadv : st.opts.advertise = some a) (hpos : a > 0) :
    bindDone st cb none
      = Except.ok ({ st with timer := some (1000 * a) },
          [Effect.setBroadcast socket, Effect.setInterval (1000 * a)]
            ++ callStart cb (some socket) none) := by
  simp [bindDone, hsocket, hadv, hpos]
  rfl

/-- C8: after `start` on an idle engine and a successful bind, the period of the advertise
timer is `1000 * max a 5000` milliseconds, where `a` is the supplied advertise value (10 when
none is supplied): the floor of 5000 is applied to the value in seconds, before the
multiplication by 1000. -/
theorem advertise_period_is_clamped_seconds (st : Engine) (options : Options) (cb : Callback)
    (fresh : Nat) (hidle : st.socket = none) :
    ∃ result, bindDone (start st options cb fresh).1 cb none = Except.ok result
      ∧ result.1.timer = some (1000 * max (options.advertise.getD 10) 5000)
      ∧ Effect.setInterval (1000 * max (options.advertise.getD 10) 5000) ∈ result.2 := by
  obtain ⟨hsocket, hadv⟩ := start_advertise st options cb fresh hidle
  have hpos : max (options.advertise.getD 10) 5000 > 0 :=
    lt_of_lt_of_le (by decide) (le_max_right _ _)
  exact ⟨_, bindDone_schedules _ cb fresh _ hsocket hadv hpos, rfl, by simp⟩

theorem advertise_period_is_clamped_seconds_witness :
    Engine.initial.socket = none
    ∧ ∃ result,
        bindDone (start Engine.initial (optionsAdvertise 1) (Callback.fn 7) 1).1 (Callback.fn 7) none
          = Except.ok result
        ∧ result.1.timer = some 5000000 := by
  obtain ⟨result, h1, h2, _⟩ :=
    advertise_period_is_clamped_seconds Engine.initial (optionsAdvertise 1) (Callback.fn 7) 1 rfl
  exact ⟨rfl, result, h1, by simpa [optionsAdvertise] using h2⟩

/-- C9, as stated, fails: a datagram that is not valid JSON makes the receive handler raise a
SyntaxError, and a JSON object without a service list makes it raise a TypeError; neither
returns with a call of the error callback. -/
theorem malformed_datagram_raises :
    _socketMessage (engineWith [entryAt 0]) Zone.utc Datagram.notJson "10.0.0.1" 1000
        = Except.error (Abort.raise JsError.syntaxError)
    ∧ _socketMessage (engineWith [entryAt 0]) Zone.utc
        (Datagram.json (Json.obj [("hostname", Json.str "alpha")])) "10.0.0.1" 1000
        = Except.error (Abort.raise JsError.typeError) :=
  ⟨rfl, rfl⟩

/-- C9, amended: for every inbound datagram that is not valid JSON, or whose JSON value has
no array under `service`, the receive handler raises (a SyntaxError in the first case, a
TypeError in the second) without calling the error callback, and the engine, its registry
included, is exactly as it was before the datagram. -/
theorem malformed_datagram_dropped (st : Engine) (zone : Zone) (msg : Datagram)
    (address : String) (now : Int)
    (h : msg = Datagram.notJson
      ∨ ∃ data, msg = Datagram.json data ∧ ∀ items, data.get "service" ≠ some (Json.arr items)) :
    _socketMessage st zone msg address now
        = Except.error (Abort.raise
            (match msg with
              | Datagram.notJson => JsError.syntaxError
              | Datagram.json _ => JsError.typeError))
    ∧ RegistryStep.run zone st (RegistryStep.receive msg address now) = st := by
  refine ⟨?_, receive_keeps_engine st zone msg address now⟩
  rcases h with h | ⟨data, h, hno⟩
  · subst h
    rfl
  · subst h
    have hrec : received data address now = Except.error (Abort.raise JsError.typeError) := by
      unfold received
      split
      · rfl
      · split
        · rename_i items heq
          exact absurd heq (hno items)
        · rfl
    simp [_socketMessage, JSON_parse, hrec, bind, Except.bind, pure, Except.pure]

theorem malformed_datagram_dropped_witness :
    (Datagram.json (Json.str "hello") = Datagram.notJson
      ∨ ∃ data, Datagram.json (Json.str "hello") = Datagram.json data
          ∧ ∀ items, data.get "service" ≠ some (Json.arr items))
    ∧ _socketMessage (engineWith [entryAt 0]) Zone.utc (Datagram.json (Json.str "hello"))
        "10.0.0.1" 1000 = Except.error (Abort.raise JsError.typeError)
    ∧ RegistryStep.run Zone.utc (engineWith [entryAt 0])
        (RegistryStep.receive (Datagram.json (Json.str "hello")) "10.0.0.1" 1000)
        = engineWith [entryAt 0] :=
  have hyp : Datagram.json (Json.str "hello") = Datagram.notJson
      ∨ ∃ data, Datagram.json (Json.str "hello") = Datagram.json data
          ∧ ∀ items, data.get "service" ≠ some (Json.arr items) :=
    Or.inr ⟨Json.str "hello", rfl, fun _ hget => by simp [Json.get] at hget⟩
  ⟨hyp, (malformed_datagram_dropped (engineWith [entryAt 0]) Zone.utc _ "10.0.0.1" 1000 hyp).1,
    (malformed_datagram_dropped (engineWith [entryAt 0]) Zone.utc _ "10.0.0.1" 1000 hyp).2⟩

/-- C10: on an engine whose socket is open and whose options have no key `services` (no
configuration of recognised keys has one), an advertise tick raises a TypeError at its guard
`opts.services.length`, for every list of interfaces: it issues no send and runs no purge. -/
theorem advertise_tick_raises (st : Engine) (host : Host) (zone : Zone)
    (allNetworkInterfaces : List Interface) (now : Int) (socket : Nat)
    (hsocket : st.socket = some socket) (hkey : st.opts.extra.lookup "services" = none) :
    _sendDatagram st host zone allNetworkInterfaces now
      = Except.error (Abort.raise JsError.typeError) := by
  simp [_sendDatagram, hsocket, hkey]
  rfl

theorem advertise_tick_raises_witness :
    (runningWith optionsWeb).socket = some 1
    ∧ (runningWith optionsWeb).opts.service
        = some [{ name := "web", port := 8080, secure := false, path := "/" }]
    ∧ (runningWith optionsWeb).opts.extra.lookup "services" = none
    ∧ _sendDatagram (runningWith optionsWeb) hostAlpha Zone.utc [eth0] 7000
        = Except.error (Abort.raise JsError.typeError) :=
  ⟨rfl, rfl, rfl,
    advertise_tick_raises (runningWith optionsWeb) hostAlpha Zone.utc [eth0] 7000 1 rfl rfl⟩

/-! ## The calculator on a dotted quad with a prefix length -/

set_option maxRecDepth 100000 in
theorem octet_text (a : Nat) (ha : a < 256) :
    (toString a).data ≠ [] ∧ '.' ∉ (toString a).data ∧ '/' ∉ (toString a).data
      ∧ toNumber (toString a).data = Except.ok (JsNum.int a) := by
  revert a
  decide

theorem split_absent (sep : Char) (xs : List Char) (h : sep ∉ xs) : split sep xs = [xs] := by
  induction xs with
  | nil => rfl
  | cons x xs ih =>
    have hx : x ≠ sep := fun e => h (by simp [e])
    have hxs : sep ∉ xs := fun e => h (List.mem_cons_of_mem _ e)
    simp [split, hx, ih hxs]

theorem split_append (sep : Char) (xs ys : List Char) (h : sep ∉ xs) :
    split sep (xs ++ sep :: ys) = xs :: split sep ys := by
  induction xs with
  | nil => simp [split]
  | cons x xs ih =>
    have hx : x ≠ sep := fun e => h (by simp [e])
    have hxs : sep ∉ xs := fun e => h (List.mem_cons_of_mem _ e)
    simp [split, hx, ih hxs]

theorem indexOfFrom_append (c : Char) (xs ys : List Char) (i : Nat) (h : c ∉ xs) :
    indexOfFrom c i (xs ++ c :: ys) = ((i + xs.length : Nat) : Int) := by
  induction xs generalizing i with
  | nil => simp [indexOfFrom]
  | cons x xs ih =>
    have hx : x ≠ c := fun e => h (by simp [e])
    have hxs : c ∉ xs := fun e => h (List.mem_cons_of_mem _ e)
    simp [indexOfFrom, hx, ih (i + 1) hxs]
    omega

theorem indexOf_append_pos (c : Char) (xs ys : List Char) (h : c ∉ xs) (hne : xs ≠ []) :
    indexOf c (xs ++ c :: ys) > 0 := by
  unfold indexOf
  rw [indexOfFrom_append c xs ys 0 h]
  have : 0 < xs.length := List.length_pos.mpr hne
  omega

theorem exact_ok (v : Int) (h1 : -9007199254740992 ≤ v) (h2 : v ≤ 9007199254740992) :
    exact v = Except.ok (JsNum.int v) := by
  simp [exact, maxExact, h1, h2]
  rfl

theorem dottedQuad_data (a b c d : Nat) :
    (dottedQuad a b c d).data
      = (toString a).data ++ '.' :: ((toString b).data ++ '.' :: ((toString c).data
          ++ '.' :: (toString d).data)) := by
  simp [dottedQuad, String.data_append]

theorem ip2longFrom_step (i : Nat) (acc p m : Int) (part : List Char)
    (rest : List (List Char)) (hp : toNumber part = Except.ok (JsNum.int p))
    (hm : multiplierAt i = JsNum.int m)
    (h1 : -9007199254740992 ≤ p * m) (h2 : p * m ≤ 9007199254740992)
    (h3 : -9007199254740992 ≤ acc + p * m) (h4 : acc + p * m ≤ 9007199254740992) :
    ip2longFrom i (JsNum.int acc) (part :: rest)
      = ip2longFrom (i + 1) (JsNum.int (acc + p * m)) rest := by
  simp [ip2longFrom, hp, hm, JsNum.mul, JsNum.add, exact_ok _ h1 h2, exact_ok _ h3 h4, bind,
    Except.bind]

theorem ip2long_dottedQuad (a b c d : Nat) (ha : a < 256) (hb : b < 256) (hc : c < 256)
    (hd : d < 256) :
    ip2long (dottedQuad a b c d).data = Except.ok (JsNum.int (quadValue a b c d)) := by
  obtain ⟨_, ha1, _, ha2⟩ := octet_text a ha
  obtain ⟨_, hb1, _, hb2⟩ := octet_text b hb
  obtain ⟨_, hc1, _, hc2⟩ := octet_text c hc
  obtain ⟨_, hd1, _, hd2⟩ := octet_text d hd
  rw [ip2long, dottedQuad_data, split_append _ _ _ ha1, split_append _ _ _ hb1,
    split_append _ _ _ hc1, split_absent _ _ hd1]
  rw [ip2longFrom_step 0 0 a 16777216 _ _ ha2 rfl (by omega) (by omega) (by omega) (by omega),
    ip2longFrom_step 1 _ b 65536 _ _ hb2 rfl (by omega) (by omega) (by omega) (by omega),
    ip2longFrom_step 2 _ c 256 _ _ hc2 rfl (by omega) (by omega) (by omega) (by omega),
    ip2longFrom_step 3 _ d 1 _ _ hd2 rfl (by omega) (by omega) (by omega) (by omega)]
  simp only [ip2longFrom, quadValue, pure, Except.pure]
  congr 2
  push_cast
  ring

theorem toString_natCast (k : Nat) : toString ((k : Nat) : Int) = toString k := rfl

theorem octet_natCast (v : Nat) (m : Nat) :
    octet (JsNum.int v) m = JsNum.int ((v % (m * 256) / m : Nat)) := by
  simp only [octet]
  congr 1

theorem long2ip_natCast (v : Nat) (hv : v < 4294967296) :
    long2ip (JsNum.int v) = quadOf v := by
  have h1 := octet_natCast v 16777216
  have h2 := octet_natCast v 65536
  have h3 := octet_natCast v 256
  have h4 := octet_natCast v 1
  simp only [Nat.cast_ofNat, Nat.cast_one] at h1 h2 h3 h4
  have e1 : v % (16777216 * 256) / 16777216 = v / 16777216 % 256 := by omega
  have e2 : v % (65536 * 256) / 65536 = v / 65536 % 256 := by omega
  have e3 : v % (256 * 256) / 256 = v / 256 % 256 := by omega
  have e4 : v % (1 * 256) / 1 = v % 256 := by omega
  apply String.ext
  simp only [long2ip, multipliers, List.map, join, quadOf, dottedQuad_data, h1, h2, h3, h4, e1,
    e2, e3, e4, numberText, toString_natCast]


theorem quadOf_quadValue (a b c d : Nat) (ha : a < 256) (hb : b < 256) (hc : c < 256)
    (hd : d < 256) : quadOf (quadValue a b c d) = dottedQuad a b c d := by
  have e1 : quadValue a b c d / 16777216 % 256 = a := by unfold quadValue; omega
  have e2 : quadValue a b c d / 65536 % 256 = b := by unfold quadValue; omega
  have e3 : quadValue a b c d / 256 % 256 = c := by unfold quadValue; omega
  have e4 : quadValue a b c d % 256 = d := by unfold quadValue; omega
  simp only [quadOf, e1, e2, e3, e4]

theorem quadValue_lt (a b c d : Nat) (ha : a < 256) (hb : b < 256) (hc : c < 256)
    (hd : d < 256) : quadValue a b c d < 4294967296 := by
  unfold quadValue; omega

theorem toUint32_natCast (v : Nat) (hv : v < 4294967296) : toUint32 (JsNum.int v) = v := by
  simp only [toUint32]
  omega

theorem toUint32_toInt32 (x : JsNum) : toUint32 (JsNum.int (toInt32 x)) = toUint32 x := by
  have hlt : toUint32 x < 4294967296 := by
    cases x with
    | nan => simp [toUint32]
    | int v => simp only [toUint32]; omega
  simp only [toInt32]
  generalize toUint32 x = u at hlt
  split
  · simp only [toUint32]; omega
  · exact toUint32_natCast _ hlt

theorem band_ushr_zero (v : Nat) (y : JsNum) (hv : v < 4294967296) :
    ((JsNum.int v).band y).ushr (JsNum.int 0) = JsNum.int ((v &&& toUint32 y : Nat)) := by
  have hle : v &&& toUint32 y ≤ v := Nat.and_le_left
  simp only [JsNum.band, JsNum.ushr, toUint32_toInt32, toUint32_natCast v hv]
  rw [toUint32_natCast _ (by omega)]
  simp [toUint32]

theorem slash_data (a b c d : Nat) (n : String) :
    (dottedQuad a b c d ++ "/" ++ n).data = (dottedQuad a b c d).data ++ '/' :: n.data := by
  simp [String.data_append]

theorem dottedQuad_facts (a b c d : Nat) (ha : a < 256) (hb : b < 256) (hc : c < 256)
    (hd : d < 256) :
    '/' ∉ (dottedQuad a b c d).data ∧ indexOf '.' (dottedQuad a b c d).data > 0 := by
  obtain ⟨ha0, ha1, ha3, _⟩ := octet_text a ha
  obtain ⟨_, _, hb3, _⟩ := octet_text b hb
  obtain ⟨_, _, hc3, _⟩ := octet_text c hc
  obtain ⟨_, _, hd3, _⟩ := octet_text d hd
  constructor
  · rw [dottedQuad_data]
    simp [ha3, hb3, hc3, hd3]
  · rw [dottedQuad_data]
    exact indexOf_append_pos _ _ _ ha1 ha0

theorem calc_prefix (a b c d : Nat) (n : String) (ha : a < 256) (hb : b < 256) (hc : c < 256)
    (hd : d < 256) (hn : '/' ∉ n.data) :
    getAddressInformation (dottedQuad a b c d ++ "/" ++ n)
      = (withMask (JsNum.int (quadValue a b c d)) (dottedQuad a b c d) n.data).map some := by
  obtain ⟨hs, hi⟩ := dottedQuad_facts a b c d ha hb hc hd
  have hv := quadValue_lt a b c d ha hb hc hd
  simp only [getAddressInformation, slash_data, split_append _ _ _ hs, split_absent _ _ hn]
  simp [hi, ip2long_dottedQuad a b c d ha hb hc hd, long2ip_natCast _ hv,
    quadOf_quadValue a b c d ha hb hc hd, bind, Except.bind, Except.map, pure, Except.pure]


theorem add_natCast (v k : Nat) (hv : v < 4294967296) (hk : k ≤ 4294967296) :
    (JsNum.int v).add (JsNum.int k) = Except.ok (JsNum.int ((v + k : Nat))) := by
  simp only [JsNum.add]
  rw [exact_ok _ (by omega) (by omega)]
  simp

theorem bind_ok {α β : Type} (x : α) (f : α → Run β) : (Except.ok x >>= f) = f x := rfl

theorem hostRange_high (m : Int) (N k : Nat) (hm : 30 < m) (hk : 1 ≤ k)
    (hN : N + k ≤ 4294967296) :
    hostRange (JsNum.int m) (JsNum.int N) (JsNum.int k)
      = Except.ok (none, quadOf N, quadOf (N + k - 1)) := by
  have hadd := add_natCast N k (by omega) (by omega)
  have hval : ((N + k : Nat) : Int) - 1 = ((N + k - 1 : Nat) : Int) := by omega
  have hsub : (JsNum.int ((N + k : Nat))).sub (JsNum.int 1)
      = Except.ok (JsNum.int ((N + k - 1 : Nat))) := by
    simp only [JsNum.sub, hval]
    exact exact_ok _ (by omega) (by omega)
  have hle : (JsNum.int m).le (JsNum.int 30) = false := by
    simp only [JsNum.le, decide_eq_false_iff_not]
    omega
  unfold hostRange
  rw [hadd, bind_ok, hsub, bind_ok, hle]
  simp only [long2ip_natCast N (by omega), long2ip_natCast (N + k - 1) (by omega)]
  rfl

theorem withMask_high (v : Nat) (text : String) (part1 : List Char) (m : Int) (M k : Nat)
    (hv : v < 4294967296) (hmask : maskOf part1 = Except.ok (JsNum.int m, JsNum.int M))
    (hm : 30 < m) (hm2 : m ≤ 32) (hM : M < 4294967296)
    (hsize : pow2 (JsNum.int (32 - m)) = Except.ok (JsNum.int k))
    (hk : 1 ≤ k) (hfit : (v &&& M) + k ≤ 4294967296) :
    withMask (JsNum.int v) text part1
      = Except.ok {
          address := some text
          netmask := some (quadOf M)
          cidr := some (JsNum.int m)
          hostmask := some (long2ip (JsNum.int M).bnot)
          network := some (quadOf (v &&& M))
          «class» := classOf (JsNum.int v)
          broadcast := none
          size := some (JsNum.int k)
          first := some (quadOf (v &&& M))
          last := some (quadOf ((v &&& M) + k - 1)) } := by
  have hnet := band_ushr_zero v (JsNum.int M) hv
  rw [toUint32_natCast M hM] at hnet
  have hsub : (JsNum.int 32).sub (JsNum.int m) = Except.ok (JsNum.int (32 - m)) := by
    simp only [JsNum.sub]
    exact exact_ok _ (by omega) (by omega)
  unfold withMask
  rw [hmask, bind_ok]
  simp only [hnet, hsub, bind_ok, hsize, hostRange_high m (v &&& M) k hm hk hfit,
    long2ip_natCast M hM, long2ip_natCast (v &&& M) (lt_of_le_of_lt Nat.and_le_left hv)]
  rfl


theorem and_all_ones (v : Nat) (hv : v < 4294967296) : v &&& 4294967295 = v := by
  have h := Nat.and_pow_two_sub_one_eq_mod v 32
  norm_num at h
  rw [h]
  omega

/-- C4: at "192.168.1.10/0" the calculator returns cidr 0 together with netmask
255.255.255.255 (not 0.0.0.0), network 192.168.1.10 (the address itself) and size 4294967296:
the shift count `32 - 0` of `0xFFFFFFFF << (32 - mask_bits)` is taken modulo 32, so the mask
of prefix length 0 is the mask of prefix length 32. -/
theorem prefix_zero_netmask :
    canonicalMask (JsNum.int 0) = Except.ok (JsNum.int 4294967295)
    ∧ getAddressInformation "192.168.1.10/0" = Except.ok (some {
        address := some "192.168.1.10"
        netmask := some "255.255.255.255"
        cidr := some (JsNum.int 0)
        hostmask := some "0.0.0.0"
        network := some "192.168.1.10"
        «class» := some "C"
        broadcast := some "192.168.1.9"
        size := some (JsNum.int 4294967296)
        first := some "192.168.1.11"
        last := some "192.168.1.8" }) := by
  decide

/-- C5: at "192.168.1.10/0" the calculator returns broadcast 192.168.1.9, first 192.168.1.11
and last 192.168.1.8.  Read back as numbers, the network is 3232235786 and the size
4294967296, the broadcast is 3232235785 (below the address, and not network + size - 1), and
last is 3232235784 (not network + size - 2): the sums wrap around past 255.255.255.255. -/
theorem prefix_zero_broadcast_wraps :
    ∃ info, getAddressInformation "192.168.1.10/0" = Except.ok (some info)
      ∧ info.network = some "192.168.1.10" ∧ info.size = some (JsNum.int 4294967296)
      ∧ info.broadcast = some "192.168.1.9" ∧ info.first = some "192.168.1.11"
      ∧ info.last = some "192.168.1.8"
      ∧ ip2long "192.168.1.10".data = Except.ok (JsNum.int 3232235786)
      ∧ ip2long "192.168.1.9".data = Except.ok (JsNum.int 3232235785)
      ∧ ip2long "192.168.1.8".data = Except.ok (JsNum.int 3232235784)
      ∧ (3232235785 : Int) ≠ 3232235786 + 4294967296 - 1
      ∧ (3232235785 : Int) < 3232235786 :=
  ⟨_, rfl, rfl, rfl, rfl, rfl, rfl, rfl, rfl, rfl, by decide, by decide⟩

/-- C6: for a dotted quad of four octets 0–255 and a prefix length of 31 or 32 the calculator
returns a null broadcast, `first` equal to the network address and `last` equal to the network
address plus the size minus one, the network address being the address AND the mask and the
size `2 ^ (32 - n)`; for 32, address, network, first and last all are the address itself. -/
theorem host_route_range (a b c d n : Nat) (ha : a < 256) (hb : b < 256) (hc : c < 256)
    (hd : d < 256) (hn : n = 31 ∨ n = 32) :
    ∃ info,
      getAddressInformation (dottedQuad a b c d ++ "/" ++ toString n) = Except.ok (some info)
      ∧ info.cidr = some (JsNum.int n)
      ∧ info.size = some (JsNum.int ((2 ^ (32 - n) : Nat)))
      ∧ info.network
          = some (quadOf (quadValue a b c d &&& (4294967296 - 2 ^ (32 - n))))
      ∧ info.broadcast = none
      ∧ info.first = info.network
      ∧ info.last
          = some (quadOf
              ((quadValue a b c d &&& (4294967296 - 2 ^ (32 - n))) + 2 ^ (32 - n) - 1))
      ∧ (n = 32 →
          info.address = some (dottedQuad a b c d) ∧ info.network = some (dottedQuad a b c d)
          ∧ info.first = some (dottedQuad a b c d) ∧ info.last = some (dottedQuad a b c d)) := by
  have hv := quadValue_lt a b c d ha hb hc hd
  rcases hn with hn | hn
  · subst hn
    have hcalc := calc_prefix a b c d "31" ha hb hc hd (by decide)
    have hle : quadValue a b c d &&& 4294967294 ≤ 4294967294 := Nat.and_le_right
    have hwith := withMask_high (quadValue a b c d) (dottedQuad a b c d) "31".data 31
      4294967294 2 hv rfl (by decide) (by decide) (by decide) rfl (by decide) (by omega)
    rw [hwith] at hcalc
    exact ⟨_, hcalc, rfl, rfl, rfl, rfl, rfl, rfl, fun h => absurd h (by decide)⟩
  · subst hn
    have hcalc := calc_prefix a b c d "32" ha hb hc hd (by decide)
    have hall := and_all_ones (quadValue a b c d) hv
    have hwith := withMask_high (quadValue a b c d) (dottedQuad a b c d) "32".data 32
      4294967295 1 hv rfl (by decide) (by decide) (by decide) rfl (by decide) (by omega)
    rw [hwith] at hcalc
    have hq := quadOf_quadValue a b c d ha hb hc hd
    refine ⟨_, hcalc, rfl, rfl, rfl, rfl, rfl, rfl, fun _ => ⟨rfl, ?_, ?_, ?_⟩⟩
    · show some (quadOf (quadValue a b c d &&& 4294967295)) = _
      rw [hall, hq]
    · show some (quadOf (quadValue a b c d &&& 4294967295)) = _
      rw [hall, hq]
    · show some (quadOf ((quadValue a b c d &&& 4294967295) + 1 - 1)) = _
      rw [hall, Nat.add_sub_cancel, hq]

theorem host_route_range_witness :
    (10 < 256 ∧ 0 < 256 ∧ 0 < 256 ∧ 5 < 256 ∧ (31 = 31 ∨ 31 = 32))
    ∧ ∃ info,
      getAddressInformation "10.0.0.5/31" = Except.ok (some info)
      ∧ info.broadcast = none ∧ info.network = some "10.0.0.4"
      ∧ info.first = some "10.0.0.4" ∧ info.last = some "10.0.0.5" := by
  obtain ⟨info, h1, _, _, h4, h5, h6, h7, _⟩ :=
    host_route_range 10 0 0 5 31 (by decide) (by decide) (by decide) (by decide) (Or.inl rfl)
  refine ⟨by decide, info, h1, h5, ?_, ?_, ?_⟩
  · rw [h4]; decide
  · rw [h6, h4]; decide
  · rw [h7]; decide

/-! ## Change callback, stop and restart -/

theorem receivedAll_ok (data : Json) (address : String) (now : Int) (items : List Json)
    (h : ∀ svc ∈ items, svc ≠ Json.null) :
    ∃ entries, receivedAll data address now items = Except.ok entries := by
  induction items with
  | nil => exact ⟨[], rfl⟩
  | cons svc rest ih =>
    obtain ⟨entries, hrest⟩ := ih fun x hx => h x (List.mem_cons_of_mem _ hx)
    have hsvc : svc ≠ Json.null := h svc (List.mem_cons_self _ _)
    cases svc
    case null => exact absurd rfl hsvc
    all_goals
      simp [receivedAll, receivedService, hrest, bind, Except.bind, pure, Except.pure]

/-- C16: for every engine state and every well-formed announcement (a JSON value with an array
under `service` none of whose elements is null) the receive handler raises a ReferenceError at
the read of `service.length`: it returns no new registry and calls no change callback, whether
or not the announcement would change the size of the registry. -/
theorem announcement_raises_before_change (st : Engine) (zone : Zone) (data : Json)
    (address : String) (now : Int) (items : List Json)
    (hservice : data.get "service" = some (Json.arr items))
    (hitems : ∀ svc ∈ items, svc ≠ Json.null) :
    _socketMessage st zone (Datagram.json data) address now
        = Except.error (Abort.raise JsError.referenceError)
    ∧ RegistryStep.run zone st (RegistryStep.receive (Datagram.json data) address now) = st := by
  refine ⟨?_, receive_keeps_engine st zone _ address now⟩
  obtain ⟨entries, hall⟩ := receivedAll_ok data address now items hitems
  have hrec : received data address now = Except.ok entries := by
    unfold received
    cases data
    case null => simp [Json.get] at hservice
    all_goals simp only [hservice, hall]
  simp [_socketMessage, JSON_parse, hrec, serviceLength, bind, Except.bind, pure, Except.pure,
    throw, throwThe, MonadExceptOf.throw]

theorem announcement_raises_before_change_witness :
    (announcementWeb 80).get "service"
        = some (Json.arr [Json.obj [("name", Json.str "web"), ("port", Json.num 80),
            ("secure", Json.bool false), ("path", Json.str "/")]])
    ∧ _socketMessage { Engine.initial with opts := DEFAULTS, socket := some 1 } Zone.utc
        (Datagram.json (announcementWeb 80)) "10.0.0.1" 1000
        = Except.error (Abort.raise JsError.referenceError) :=
  ⟨rfl,
    (announcement_raises_before_change { Engine.initial with opts := DEFAULTS, socket := some 1 }
      Zone.utc (announcementWeb 80) "10.0.0.1" 1000 _ rfl
      (by intro svc hsvc; rw [List.mem_singleton] at hsvc; rw [hsvc]; exact Json.noConfusion)).1⟩

theorem afterRun_bindDone (st : Engine) (cb : Callback) (err : Option ErrorValue) :
    (afterRun st (bindDone st cb err)).services = st.services := by
  unfold bindDone
  cases st.socket with
  | none => rfl
  | some socket =>
    cases err with
    | some e => rfl
    | none =>
      cases st.opts.advertise with
      | none => rfl
      | some advertise =>
        by_cases h : advertise > 0
        · simp [afterRun, h, pure, Except.pure]
        · simp [afterRun, h, pure, Except.pure]

theorem afterRun_sendDatagram (st : Engine) (host : Host) (zone : Zone)
    (allNetworkInterfaces : List Interface) (now : Int) (h : st.services = []) :
    (afterRun st (_sendDatagram st host zone allNetworkInterfaces now)).services = [] := by
  unfold _sendDatagram
  cases st.socket with
  | none => exact h
  | some socket =>
    cases st.opts.extra.lookup "services" with
    | none => exact h
    | some services =>
      by_cases h1 : services.nullish = true
      · simp only [h1, if_true]
        exact h
      · by_cases h2 : services.lengthIsZero = true
        · simp only [h1, h2, if_true, if_false]
          exact h
        · simp only [h1, h2, if_false]
          generalize sendAll st socket _ _ = sent
          cases sent with
          | error e => exact h
          | ok effects => exact purge_of_empty st zone now h

theorem afterRun_socketMessage (st : Engine) (zone : Zone) (msg : Datagram) (address : String)
    (now : Int) :
    afterRun st (_socketMessage st zone msg address now) = st := by
  obtain ⟨e, h⟩ := socketMessage_raises st zone msg address now
  rw [h]
  rfl

theorem afterRun_socketError (st : Engine) (err : ErrorValue) :
    (afterRun st (_socketError st err)).services = st.services := by
  unfold _socketError
  cases st.socket with
  | none => rfl
  | some socket => rfl

theorem start_services (st : Engine) (options : Options) (cb : Callback) (fresh : Nat) :
    (start st options cb fresh).1.services = st.services := by
  unfold start
  cases st.socket with
  | none => rfl
  | some socket => rfl

theorem stop_engine (st : Engine) (cb : Callback) : (stop st cb).1 = st := by
  unfold stop
  cases st.socket with
  | none => rfl
  | some socket => rfl

theorem event_keeps_empty (zone : Zone) (st : Engine) (event : EngineEvent)
    (h : st.services = []) (hevent : ∀ now entries, event = EngineEvent.extend now entries →
      entries = []) :
    (EngineEvent.run zone st event).services = [] := by
  cases event with
  | start options cb fresh => exact (start_services st options cb fresh).trans h
  | bindDone cb err => exact (afterRun_bindDone st cb err).trans h
  | tick host allNetworkInterfaces now =>
    exact afterRun_sendDatagram st host zone allNetworkInterfaces now h
  | message msg address now =>
    exact (congrArg Engine.services (afterRun_socketMessage st zone msg address now)).trans h
  | socketError err => exact (afterRun_socketError st err).trans h
  | getServices now => exact purge_of_empty st zone now h
  | extend now entries =>
    have hnone : entries = [] := hevent now entries rfl
    have hpurge : (getServices st zone now).2 = [] := purge_of_empty st zone now h
    show (getServices st zone now).2 ++ entries = []
    rw [hpurge, hnone]
    rfl
  | stop cb => exact (congrArg Engine.services (stop_engine st cb)).trans h
  | closed cb => exact h

theorem runEvents_keeps_empty (zone : Zone) (events : List EngineEvent) (st : Engine)
    (h : st.services = [])
    (hevents : ∀ event ∈ events, ∀ now entries, event = EngineEvent.extend now entries →
      entries = []) :
    (runEvents zone st events).services = [] := by
  induction events generalizing st with
  | nil => exact h
  | cons event rest ih =>
    exact ih (EngineEvent.run zone st event)
      (event_keeps_empty zone st event h (hevents event (List.mem_cons_self _ _)))
      (fun e he => hevents e (List.mem_cons_of_mem _ he))

theorem purge_of_idle (st : Engine) (zone : Zone) (now : Int) :
    (_purge (_cleanup st).1 zone now).services = (_purge st zone now).services := by
  have hopts : (_cleanup st).1.opts = st.opts := rfl
  have hservices : (_cleanup st).1.services = st.services := rfl
  unfold _purge
  rw [hopts, hservices]
  cases st.opts.purge with
  | none => rfl
  | some purge =>
    by_cases hle : purge ≤ 0
    · simp only [hle, if_true]
      exact hservices
    · simp only [hle, if_false]
      cases deadlineOf zone now purge with
      | none => rfl
      | some deadline => rfl

/-- C17, as stated, fails: after `start`, a successful bind and a call of `getServices` at
time 1000 to whose result the caller appended an entry, the engine is running with that entry
in its registry; after `stop` and the close event the engine is idle (no socket, no timer),
the registry still holds the entry and `getServices` returns it, also after a later
`start`. -/
theorem stop_keeps_registry_refuted :
    (runEvents Zone.utc Engine.initial (runWithEntry 1000)).socket = some 1
    ∧ (runEvents Zone.utc Engine.initial (runWithEntry 1000)).services = [entryAt 1000]
    ∧ (runEvents Zone.utc Engine.initial
        (runWithEntry 1000 ++ [EngineEvent.stop (Callback.fn 8),
          EngineEvent.closed (Callback.fn 8)])).socket = none
    ∧ (runEvents Zone.utc Engine.initial
        (runWithEntry 1000 ++ [EngineEvent.stop (Callback.fn 8),
          EngineEvent.closed (Callback.fn 8)])).timer = none
    ∧ (getServices (runEvents Zone.utc Engine.initial
        (runWithEntry 1000 ++ [EngineEvent.stop (Callback.fn 8),
          EngineEvent.closed (Callback.fn 8)])) Zone.utc 2000).2 = [entryAt 1000]
    ∧ (getServices (runEvents Zone.utc Engine.initial
        (runWithEntry 1000 ++ [EngineEvent.stop (Callback.fn 8),
          EngineEvent.closed (Callback.fn 8),
          EngineEvent.start optionsWeb (Callback.fn 7) 2])) Zone.utc 2000).2
        = [entryAt 1000] :=
  ⟨rfl, rfl, rfl, rfl, rfl, rfl⟩

/-- C17, amended: for every engine with an open socket, once `stop` has been called and the
close event has run, the engine has no socket and no timer, the stop callback has been called
when one was given, and the options and the registry are what they were before `stop`, so
`getServices` returns afterwards what it would have returned before; a later `start` leaves
the registry untouched as well. -/
theorem stop_clears_socket_and_timer (st : Engine) (zone : Zone) (cb : Callback) (socket : Nat)
    (options : Options) (cb2 : Callback) (fresh : Nat) (now : Int)
    (hsocket : st.socket = some socket) :
    (stop st cb).2 = [Effect.closeThen socket cb]
    ∧ (closed (stop st cb).1 cb).1.socket = none
    ∧ (closed (stop st cb).1 cb).1.timer = none
    ∧ (closed (stop st cb).1 cb).1.opts = st.opts
    ∧ (closed (stop st cb).1 cb).1.services = st.services
    ∧ (∀ id, cb = Callback.fn id → Effect.stopCallback ∈ (closed (stop st cb).1 cb).2)
    ∧ (start (closed (stop st cb).1 cb).1 options cb2 fresh).1.services = st.services
    ∧ (getServices (closed (stop st cb).1 cb).1 zone now).2 = (getServices st zone now).2 := by
  have hstop : stop st cb = (st, [Effect.closeThen socket cb]) := by simp [stop, hsocket]
  refine ⟨by rw [hstop], by rw [hstop]; rfl, by rw [hstop]; rfl, by rw [hstop]; rfl,
    by rw [hstop]; rfl, ?_, ?_, ?_⟩
  · intro id hcb
    rw [hstop, hcb]
    simp [closed]
  · rw [hstop]
    simp [start, closed, _cleanup]
  · rw [hstop]
    exact purge_of_idle st zone now

theorem stop_clears_socket_and_timer_witness :
    (runEvents Zone.utc Engine.initial (runWithEntry 1000)).socket = some 1
    ∧ (closed (stop (runEvents Zone.utc Engine.initial (runWithEntry 1000))
        (Callback.fn 8)).1 (Callback.fn 8)).1.socket = none
    ∧ (closed (stop (runEvents Zone.utc Engine.initial (runWithEntry 1000))
        (Callback.fn 8)).1 (Callback.fn 8)).1.services
        = (runEvents Zone.utc Engine.initial (runWithEntry 1000)).services
    ∧ (getServices (closed (stop (runEvents Zone.utc Engine.initial (runWithEntry 1000))
        (Callback.fn 8)).1 (Callback.fn 8)).1 Zone.utc 2000).2
        = (getServices (runEvents Zone.utc Engine.initial (runWithEntry 1000)) Zone.utc
            2000).2 :=
  have h := stop_clears_socket_and_timer (runEvents Zone.utc Engine.initial (runWithEntry 1000))
    Zone.utc (Callback.fn 8) 1 Options.empty (Callback.fn 7) 2 2000 rfl
  ⟨rfl, h.2.1, h.2.2.2.2.1, h.2.2.2.2.2.2.2⟩

/-- C18, as stated, fails: `stop(onDone)` on a new (idle) engine issues no effect at all, so
`onDone` is not invoked, while on a running engine the close event invokes it. -/
theorem stop_idle_skips_callback :
    (stop Engine.initial (Callback.fn 7)).2 = []
    ∧ (stop (engineWith []) (Callback.fn 7)).2 = [Effect.closeThen 1 (Callback.fn 7)]
    ∧ (closed (stop (engineWith []) (Callback.fn 7)).1 (Callback.fn 7)).2
        = [Effect.clearInterval 5000000, Effect.stopCallback] :=
  ⟨rfl, rfl, rfl⟩

/-- C18, amended: for an engine that is already idle (no socket), `stop(onDone)` changes no
state and has no effect: it asks no socket to close and does not invoke `onDone`. -/
theorem stop_idle_is_silent (st : Engine) (cb : Callback) (hidle : st.socket = none) :
    stop st cb = (st, []) := by
  simp [stop, hidle]

theorem stop_idle_is_silent_witness :
    Engine.initial.socket = none ∧ stop Engine.initial (Callback.fn 7) = (Engine.initial, []) :=
  ⟨rfl, stop_idle_is_silent Engine.initial (Callback.fn 7) rfl⟩

/-- C19: for every engine whose socket is set and every configuration and callback, `start`
returns the engine unchanged (options, socket, timer and registry) with no effect: no socket
is created and the callback is not invoked. -/
theorem start_running_is_noop (st : Engine) (options : Options) (cb : Callback)
    (fresh socket : Nat) (hrunning : st.socket = some socket) :
    start st options cb fresh = (st, []) := by
  simp [start, hrunning]

theorem start_running_is_noop_witness :
    (engineWith [entryAt 0]).socket = some 1
    ∧ start (engineWith [entryAt 0]) optionsBogus (Callback.fn 7) 2
        = (engineWith [entryAt 0], []) :=
  ⟨rfl, start_running_is_noop (engineWith [entryAt 0]) optionsBogus (Callback.fn 7) 2 1 rfl⟩

/-! ## The calculator on malformed addresses and masks -/

/-- C11: for the address parts "300.1.1.1", "1.2.3", "abc" and "4294967296", none of them
four octets 0-255 or an unsigned 32-bit integer, the calculator returns a record instead of
failing, with the address fields 44.1.1.1, 1.2.3.0, NaN.NaN.NaN.NaN and 0.0.0.0: the check
`isValidAddress` has an empty body and the statement that throws on it is commented out. -/
theorem invalid_address_returns_record :
    getAddressInformation "300.1.1.1" = Except.ok (some (addressOnly "44.1.1.1"))
    ∧ getAddressInformation "1.2.3" = Except.ok (some (addressOnly "1.2.3.0"))
    ∧ getAddressInformation "abc" = Except.ok (some (addressOnly "NaN.NaN.NaN.NaN"))
    ∧ getAddressInformation "4294967296" = Except.ok (some (addressOnly "0.0.0.0")) := by
  decide

/-- C12, as stated, fails: for "10.0.0.5/255.0.255.0" the calculator returns a record, with
cidr 0, the netmask as supplied and size 4294967296. -/
theorem broken_mask_returns_record :
    getAddressInformation "10.0.0.5/255.0.255.0" = Except.ok (some {
      address := some "10.0.0.5"
      netmask := some "255.0.255.0"
      cidr := some (JsNum.int 0)
      hostmask := some "0.255.0.255"
      network := some "10.0.0.0"
      «class» := some "A"
      broadcast := some "9.255.255.255"
      size := some (JsNum.int 4294967296)
      first := some "10.0.0.1"
      last := some "9.255.255.254" }) := by
  decide

/-- C13: for "10.0.0.5" and prefix length 32 the calculator returns cidr 32 and netmask
255.255.255.255; fed back as a dotted mask, that netmask gives cidr 0 and size 4294967296, a
different record: the loop over `i < 32` never tests 32, and its index 0 matches the mask of
all ones because the shift count 32 is taken modulo 32. -/
theorem mask_of_32_reads_back_as_0 :
    getAddressInformation "10.0.0.5/32" = Except.ok (some {
      address := some "10.0.0.5"
      netmask := some "255.255.255.255"
      cidr := some (JsNum.int 32)
      hostmask := some "0.0.0.0"
      network := some "10.0.0.5"
      «class» := some "A"
      broadcast := none
      size := some (JsNum.int 1)
      first := some "10.0.0.5"
      last := some "10.0.0.5" })
    ∧ feedBack "10.0.0.5" "32" = Except.ok (some {
      address := some "10.0.0.5"
      netmask := some "255.255.255.255"
      cidr := some (JsNum.int 0)
      hostmask := some "0.0.0.0"
      network := some "10.0.0.5"
      «class» := some "A"
      broadcast := some "10.0.0.4"
      size := some (JsNum.int 4294967296)
      first := some "10.0.0.6"
      last := some "10.0.0.3" })
    ∧ feedBack "10.0.0.5" "32" ≠ getAddressInformation "10.0.0.5/32" := by
  decide

/-- C14, as stated, fails: for the bare address "10.0.0.5", whose first octet is 10, the
class field is null, while "10.0.0.5/8" has class A. -/
theorem bare_address_has_no_class :
    getAddressInformation "10.0.0.5" = Except.ok (some (addressOnly "10.0.0.5"))
    ∧ (addressOnly "10.0.0.5").«class» = none
    ∧ classOfOctet 10 = some "A"
    ∧ (getAddressInformation "10.0.0.5/8").map (Option.map AddressInfo.«class»)
        = Except.ok (some (some "A")) := by
  decide

/-- C20: for "10.0.0.5/0.0.0.0" the calculator returns netmask 0.0.0.0 and hostmask
-1.-1.-1.-1 (`~long_netmask` is a negative signed value and is not brought back to 32
unsigned bits), and for "10.0.0.5/127.0.0.0" hostmask -128.-1.-1.-1: the hostmask octets are
not within 0–255 and are not 255 minus the netmask octets. -/
theorem hostmask_of_low_mask_is_negative :
    getAddressInformation "10.0.0.5/0.0.0.0" = Except.ok (some {
      address := some "10.0.0.5"
      netmask := some "0.0.0.0"
      cidr := some (JsNum.int 0)
      hostmask := some "-1.-1.-1.-1"
      network := some "0.0.0.0"
      «class» := some "A"
      broadcast := some "255.255.255.255"
      size := some (JsNum.int 4294967296)
      first := some "0.0.0.1"
      last := some "255.255.255.254" })
    ∧ (getAddressInformation "10.0.0.5/127.0.0.0").map (Option.map AddressInfo.hostmask)
        = Except.ok (some (some "-128.-1.-1.-1"))
    ∧ (JsNum.int 0).bnot = JsNum.int (-1) := by
  decide

/-! ## Results of the calculator's steps -/

theorem bind_error {α β : Type} (err : Abort) (f : α → Run β) :
    (Except.error err >>= f) = Except.error err := rfl

theorem bind_result {α β : Type} (x : Run α) (f : α → Run β) (b : β)
    (h : (x >>= f) = Except.ok b) : ∃ a, x = Except.ok a ∧ f a = Except.ok b := by
  cases x with
  | ok a => exact ⟨a, rfl, h⟩
  | error err => rw [bind_error] at h; cases h

theorem withMask_fields (long_ip : JsNum) (text : String) (part1 : List Char)
    (info : AddressInfo) (h : withMask long_ip text part1 = Except.ok info) :
    info.address = some text ∧ info.«class» = classOf long_ip := by
  unfold withMask at h
  obtain ⟨mask, _, h⟩ := bind_result _ _ _ h
  obtain ⟨shift, _, h⟩ := bind_result _ _ _ h
  obtain ⟨size, _, h⟩ := bind_result _ _ _ h
  obtain ⟨range, _, h⟩ := bind_result _ _ _ h
  have hinfo := Except.ok.inj h
  rw [← hinfo]
  exact ⟨rfl, rfl⟩

theorem split_ne_nil (sep : Char) (s : List Char) : split sep s ≠ [] := by
  cases s with
  | nil => simp [split]
  | cons c cs =>
    unfold split
    split
    · simp
    · split <;> simp

/-! ## Decimal strings -/

theorem digitChar_props (d : Nat) (h : d < 10) :
    isDecimalDigit (Nat.digitChar d) = true ∧ (Nat.digitChar d).toNat - 48 = d := by
  revert d
  decide

theorem toDigitsCore_append (steps n : Nat) (tail : List Char) :
    Nat.toDigitsCore 10 steps n tail = Nat.toDigitsCore 10 steps n [] ++ tail := by
  induction steps generalizing tail n with
  | zero => simp [Nat.toDigitsCore]
  | succ steps ih =>
    simp only [Nat.toDigitsCore]
    split
    · simp
    · rw [ih (n / 10) (Nat.digitChar (n % 10) :: tail), ih (n / 10) [Nat.digitChar (n % 10)]]
      simp

theorem toDigitsCore_digits (steps n : Nat) (tail : List Char)
    (h : ∀ c ∈ tail, isDecimalDigit c = true) :
    ∀ c ∈ Nat.toDigitsCore 10 steps n tail, isDecimalDigit c = true := by
  induction steps generalizing tail n with
  | zero => simpa [Nat.toDigitsCore] using h
  | succ steps ih =>
    have hd := (digitChar_props (n % 10) (Nat.mod_lt _ (by decide))).1
    have hcons : ∀ c ∈ Nat.digitChar (n % 10) :: tail, isDecimalDigit c = true := by
      intro c hc
      rcases List.mem_cons.mp hc with hc | hc
      · rw [hc]; exact hd
      · exact h c hc
    simp only [Nat.toDigitsCore]
    split
    · exact hcons
    · exact ih (n / 10) _ hcons

theorem digitsValue_append (acc : Nat) (xs ys : List Char) :
    digitsValue acc (xs ++ ys) = digitsValue (digitsValue acc xs) ys := by
  induction xs generalizing acc with
  | nil => rfl
  | cons x xs ih => exact ih (acc * 10 + (x.toNat - 48))

theorem digitsValue_single (acc : Nat) (c : Char) :
    digitsValue acc [c] = acc * 10 + (c.toNat - 48) := rfl

theorem toDigitsCore_value (steps n : Nat) (h : n < steps) :
    digitsValue 0 (Nat.toDigitsCore 10 steps n []) = n := by
  induction steps generalizing n with
  | zero => omega
  | succ steps ih =>
    have hd := (digitChar_props (n % 10) (Nat.mod_lt _ (by decide))).2
    simp only [Nat.toDigitsCore]
    split
    · rename_i hz
      rw [digitsValue_single, hd]
      omega
    · rename_i hz
      rw [toDigitsCore_append, digitsValue_append, ih (n / 10) (by omega), digitsValue_single,
        hd]
      omega

theorem toDigitsCore_ne_nil (steps n : Nat) (tail : List Char) (h : 0 < steps) :
    Nat.toDigitsCore 10 steps n tail ≠ [] := by
  cases steps with
  | zero => omega
  | succ steps =>
    simp only [Nat.toDigitsCore]
    split
    · simp
    · rw [toDigitsCore_append]
      simp

theorem decimal_props (v : Nat) :
    (toString v).data ≠ [] ∧ (∀ c ∈ (toString v).data, isDecimalDigit c = true)
      ∧ digitsValue 0 (toString v).data = v := by
  have hdata : (toString v).data = Nat.toDigitsCore 10 (v + 1) v [] := rfl
  rw [hdata]
  exact ⟨toDigitsCore_ne_nil _ _ _ (by omega),
    toDigitsCore_digits _ _ _ (by simp), toDigitsCore_value _ _ (by omega)⟩

theorem digit_not_space (c : Char) (h : isDecimalDigit c = true) : isWhiteSpace c = false := by
  simp only [isDecimalDigit, decide_eq_true_eq] at h
  simp only [isWhiteSpace, whiteSpaceCodes, List.contains_eq_any_beq, List.any_cons,
    List.any_nil, Bool.or_false, Bool.or_eq_false_iff, beq_eq_false_iff_ne, ne_eq]
  omega

theorem digit_ne (c x : Char) (h : isDecimalDigit c = true) (hx : isDecimalDigit x = false) :
    c ≠ x := by
  intro e
  rw [e, hx] at h
  cases h

theorem not_mem_of_digits (s : List Char) (x : Char) (h : ∀ c ∈ s, isDecimalDigit c = true)
    (hx : isDecimalDigit x = false) : x ∉ s := by
  intro hmem
  have := h x hmem
  rw [hx] at this
  cases this

theorem indexOfFrom_absent (c : Char) (s : List Char) (i : Nat) (h : c ∉ s) :
    indexOfFrom c i s = -1 := by
  induction s generalizing i with
  | nil => rfl
  | cons x xs ih =>
    have hx : x ≠ c := fun e => h (by simp [e])
    have hxs : c ∉ xs := fun e => h (List.mem_cons_of_mem _ e)
    simp [indexOfFrom, hx, ih (i + 1) hxs]

theorem parseInt_digits (s : List Char) (hne : s ≠ [])
    (h : ∀ c ∈ s, isDecimalDigit c = true) :
    parseInt s = exact (digitsValue 0 s) := by
  cases s with
  | nil => exact absurd rfl hne
  | cons c cs =>
    have hc : isDecimalDigit c = true := h c (List.mem_cons_self _ _)
    have hspace : isWhiteSpace c = false := digit_not_space c hc
    have hplus : c ≠ '+' := digit_ne c '+' hc (by decide)
    have hminus : c ≠ '-' := digit_ne c '-' hc (by decide)
    have htake : (c :: cs).takeWhile isDecimalDigit = c :: cs := by
      rw [List.takeWhile_eq_self_iff]
      exact h
    have hdigits : parseIntDigits (c :: cs) = exact (digitsValue 0 (c :: cs)) := by
      simp only [parseIntDigits, htake]
    unfold parseInt
    simp only [List.dropWhile, hspace]
    split
    · rename_i heq
      exact absurd (List.cons.inj heq).1 hplus
    · rename_i heq
      exact absurd (List.cons.inj heq).1 hminus
    · exact hdigits

theorem decimal_parse (v : Nat) (hv : v < 4294967296) :
    '/' ∉ (toString v).data ∧ (toString v).data ≠ []
      ∧ ¬ (indexOf '.' (toString v).data > 0)
      ∧ parseInt (toString v).data = Except.ok (JsNum.int v) := by
  obtain ⟨hne, hdigits, hvalue⟩ := decimal_props v
  refine ⟨not_mem_of_digits _ _ hdigits (by decide), hne, ?_, ?_⟩
  · unfold indexOf
    rw [indexOfFrom_absent _ _ _ (not_mem_of_digits _ _ hdigits (by decide))]
    decide
  · rw [parseInt_digits _ hne hdigits, hvalue]
    exact exact_ok _ (by omega) (by omega)

/-! ## The calculator by the number read from the address part -/

theorem split_cons (sep : Char) (s : List Char) :
    ∃ p ps, split sep s = p :: ps := by
  cases h : split sep s with
  | nil => exact absurd h (split_ne_nil sep s)
  | cons p ps => exact ⟨p, ps, rfl⟩

theorem calc_with_suffix (part0 rest : String) (long_ip : JsNum) (hslash : '/' ∉ part0.data)
    (hread : (if indexOf '.' part0.data > 0 then ip2long part0.data else parseInt part0.data)
      = Except.ok long_ip) :
    getAddressInformation (part0 ++ "/" ++ rest)
      = (withMask long_ip (long2ip long_ip) ((split '/' rest.data).headD [])).map some := by
  obtain ⟨p, ps, hsplit⟩ := split_cons '/' rest.data
  have hdata : (part0 ++ "/" ++ rest).data = part0.data ++ '/' :: rest.data := by
    simp [String.data_append]
  simp only [getAddressInformation, hdata, split_append _ _ _ hslash, hsplit, List.headD]
  by_cases hdot : indexOf '.' part0.data > 0
  · rw [if_pos hdot] at hread
    simp [hdot, hread, bind, Except.bind, Except.map, pure, Except.pure]
  · rw [if_neg hdot] at hread
    simp [hdot, hread, bind, Except.bind, Except.map, pure, Except.pure]

theorem calc_bare (part0 : String) (long_ip : JsNum) (hslash : '/' ∉ part0.data)
    (hne : part0.data ≠ [])
    (hread : (if indexOf '.' part0.data > 0 then ip2long part0.data else parseInt part0.data)
      = Except.ok long_ip) :
    getAddressInformation part0 = Except.ok (some (addressOnly (long2ip long_ip))) := by
  simp only [getAddressInformation, hne, if_false, split_absent _ _ hslash]
  by_cases hdot : indexOf '.' part0.data > 0
  · rw [if_pos hdot] at hread
    simp [hdot, hread, bind, Except.bind, pure, Except.pure, addressOnly]
  · rw [if_neg hdot] at hread
    simp [hdot, hread, bind, Except.bind, pure, Except.pure, addressOnly]

theorem read_dottedQuad (a b c d : Nat) (ha : a < 256) (hb : b < 256) (hc : c < 256)
    (hd : d < 256) :
    '/' ∉ (dottedQuad a b c d).data ∧ (dottedQuad a b c d).data ≠ []
    ∧ (if indexOf '.' (dottedQuad a b c d).data > 0 then ip2long (dottedQuad a b c d).data
        else parseInt (dottedQuad a b c d).data) = Except.ok (JsNum.int (quadValue a b c d))
    ∧ long2ip (JsNum.int (quadValue a b c d)) = dottedQuad a b c d := by
  obtain ⟨hslash, hdot⟩ := dottedQuad_facts a b c d ha hb hc hd
  refine ⟨hslash, ?_, ?_, ?_⟩
  · rw [dottedQuad_data]
    intro h
    simp at h
  · rw [if_pos hdot]
    exact ip2long_dottedQuad a b c d ha hb hc hd
  · rw [long2ip_natCast _ (quadValue_lt a b c d ha hb hc hd)]
    exact quadOf_quadValue a b c d ha hb hc hd

theorem read_decimal (v : Nat) (hv : v < 4294967296) :
    '/' ∉ (toString v).data ∧ (toString v).data ≠ []
    ∧ (if indexOf '.' (toString v).data > 0 then ip2long (toString v).data
        else parseInt (toString v).data) = Except.ok (JsNum.int v)
    ∧ long2ip (JsNum.int v) = quadOf v := by
  obtain ⟨hslash, hne, hdot, hparse⟩ := decimal_parse v hv
  exact ⟨hslash, hne, by rw [if_neg hdot]; exact hparse, long2ip_natCast v hv⟩

theorem quadOf_octets (v : Nat) (hv : v < 4294967296) :
    v / 16777216 % 256 < 256 ∧ v / 65536 % 256 < 256 ∧ v / 256 % 256 < 256 ∧ v % 256 < 256
    ∧ quadValue (v / 16777216 % 256) (v / 65536 % 256) (v / 256 % 256) (v % 256) = v := by
  unfold quadValue
  omega

/-- C15: for every `v` below `2 ^ 32` and every text after a slash, the calculator applied
to the decimal string of `v` (alone or followed by the slash and the text) returns what it
returns for the dotted quad of `v` (alone or followed by the same); alone, both return the
record whose only field is the address, the dotted quad of `v`; with a suffix, every record
returned has the dotted quad of `v` as its address field. -/
theorem decimal_address_same_as_dotted (v : Nat) (rest : String) (hv : v < 4294967296) :
    getAddressInformation (toString v ++ "/" ++ rest)
        = getAddressInformation (quadOf v ++ "/" ++ rest)
    ∧ getAddressInformation (toString v) = getAddressInformation (quadOf v)
    ∧ getAddressInformation (quadOf v) = Except.ok (some (addressOnly (quadOf v)))
    ∧ ∀ info, getAddressInformation (toString v ++ "/" ++ rest) = Except.ok (some info) →
        info.address = some (quadOf v) := by
  obtain ⟨h1, h2, h3, h4, hval⟩ := quadOf_octets v hv
  obtain ⟨qslash, qne, qread, qtext⟩ := read_dottedQuad _ _ _ _ h1 h2 h3 h4
  rw [hval] at qread qtext
  obtain ⟨dslash, dne, dread, dtext⟩ := read_decimal v hv
  have hq : quadOf v = dottedQuad (v / 16777216 % 256) (v / 65536 % 256) (v / 256 % 256)
      (v % 256) := rfl
  rw [← hq] at qslash qne qread
  have hdec := calc_with_suffix (toString v) rest _ dslash dread
  have hquad := calc_with_suffix (quadOf v) rest _ qslash qread
  have hbare := calc_bare (quadOf v) _ qslash qne qread
  rw [dtext] at hbare
  refine ⟨by rw [hdec, hquad], ?_, hbare, ?_⟩
  · rw [calc_bare (toString v) _ dslash dne dread, hbare, dtext]
  · intro info hinfo
    rw [hdec, dtext] at hinfo
    cases hw : withMask (JsNum.int v) (quadOf v) ((split '/' rest.data).headD []) with
    | error err => rw [hw] at hinfo; cases hinfo
    | ok found =>
      rw [hw] at hinfo
      have hfound : found = info := Option.some.inj (Except.ok.inj hinfo)
      rw [← hfound]
      exact (withMask_fields _ _ _ _ hw).1

theorem decimal_address_same_as_dotted_witness :
    3232235786 < 4294967296
    ∧ getAddressInformation "3232235786/24" = getAddressInformation "192.168.1.10/24"
    ∧ getAddressInformation "3232235786" = getAddressInformation "192.168.1.10"
    ∧ getAddressInformation "192.168.1.10" = Except.ok (some (addressOnly "192.168.1.10")) :=
  have h := decimal_address_same_as_dotted 3232235786 "24" (by decide)
  ⟨by decide, h.1, h.2.1, h.2.2.1⟩

theorem classOf_natCast (v : Nat) (hv : v < 4294967296) :
    classOf (JsNum.int v) = classOfOctet (v / 16777216) := by
  have hshift : toUint32 (JsNum.int 24) % 32 = 24 := by decide
  have hpow : (2 : Nat) ^ 24 = 16777216 := by decide
  simp only [classOf, classOfOctet, JsNum.ushr, toUint32_natCast v hv, hshift, hpow, JsNum.le,
    decide_eq_true_eq]
  have e1 : ((v / 16777216 : Nat) : Int) ≤ 127 ↔ v / 16777216 ≤ 127 := by omega
  have e2 : ((v / 16777216 : Nat) : Int) ≤ 191 ↔ v / 16777216 ≤ 191 := by omega
  have e3 : ((v / 16777216 : Nat) : Int) ≤ 223 ↔ v / 16777216 ≤ 223 := by omega
  simp only [e1, e2, e3]

theorem suffix_class (part0 rest : String) (v : Nat) (info : AddressInfo)
    (hv : v < 4294967296) (hslash : '/' ∉ part0.data)
    (hread : (if indexOf '.' part0.data > 0 then ip2long part0.data else parseInt part0.data)
      = Except.ok (JsNum.int v))
    (h : getAddressInformation (part0 ++ "/" ++ rest) = Except.ok (some info)) :
    info.«class» = classOfOctet (v / 16777216) := by
  rw [calc_with_suffix part0 rest _ hslash hread] at h
  cases hw : withMask (JsNum.int v) (long2ip (JsNum.int v)) ((split '/' rest.data).headD [])
    with
  | error err => rw [hw] at h; cases h
  | ok found =>
    rw [hw] at h
    have hfound : found = info := Option.some.inj (Except.ok.inj h)
    rw [← hfound, (withMask_fields _ _ _ _ hw).2]
    exact classOf_natCast v hv

/-! ## Dotted masks that are not contiguous -/

theorem canonicalMask_contiguous :
    ∀ i < 32, ∃ n ∈ contiguousMasks,
      canonicalMask (JsNum.int (i : Nat)) = Except.ok (JsNum.int (n : Nat)) := by
  decide

theorem findMaskBits_absent (M : Nat) (indices : List Nat) (hM : M ∉ contiguousMasks)
    (h : ∀ i ∈ indices, i < 32) :
    findMaskBits (JsNum.int M) indices = Except.ok (JsNum.int 0) := by
  induction indices with
  | nil => rfl
  | cons i rest ih =>
    obtain ⟨n, hn, hcanon⟩ := canonicalMask_contiguous i (h i (List.mem_cons_self _ _))
    have hne : ¬ ((M : Int) = (n : Int)) := by
      intro e
      have : M = n := by exact_mod_cast e
      exact hM (this ▸ hn)
    unfold findMaskBits
    rw [hcanon, bind_ok]
    simp only [JsNum.eqNum, hne, decide_False, Bool.false_eq_true, if_false]
    exact ih fun j hj => h j (List.mem_cons_of_mem _ hj)

theorem maskOf_dotted (m1 m2 m3 m4 : Nat) (h1 : m1 < 256) (h2 : m2 < 256) (h3 : m3 < 256)
    (h4 : m4 < 256) (hM : quadValue m1 m2 m3 m4 ∉ contiguousMasks) :
    maskOf (dottedQuad m1 m2 m3 m4).data
      = Except.ok (JsNum.int 0, JsNum.int (quadValue m1 m2 m3 m4)) := by
  obtain ⟨_, hdot⟩ := dottedQuad_facts m1 m2 m3 m4 h1 h2 h3 h4
  unfold maskOf
  rw [if_pos hdot, ip2long_dottedQuad m1 m2 m3 m4 h1 h2 h3 h4, bind_ok,
    findMaskBits_absent _ _ hM (fun i hi => List.mem_range.mp hi), bind_ok]
  rfl

theorem hostRange_low (m : Int) (N k : Nat) (hm : m ≤ 30) (hN : N < 4294967296)
    (hk : 2 ≤ k) (hk2 : k ≤ 4294967296) :
    hostRange (JsNum.int m) (JsNum.int N) (JsNum.int k)
      = Except.ok (some (long2ip (JsNum.int ((N + k - 1 : Nat)))),
          long2ip (JsNum.int ((N + 1 : Nat))), long2ip (JsNum.int ((N + k - 2 : Nat)))) := by
  have hadd := add_natCast N k hN hk2
  have hadd1 := add_natCast N 1 hN (by omega)
  simp only [Nat.cast_one] at hadd1
  have hval1 : ((N + k : Nat) : Int) - 1 = ((N + k - 1 : Nat) : Int) := by omega
  have hval2 : ((N + k : Nat) : Int) - 2 = ((N + k - 2 : Nat) : Int) := by omega
  have hsub1 : (JsNum.int ((N + k : Nat))).sub (JsNum.int 1)
      = Except.ok (JsNum.int ((N + k - 1 : Nat))) := by
    simp only [JsNum.sub, hval1]
    exact exact_ok _ (by omega) (by omega)
  have hsub2 : (JsNum.int ((N + k : Nat))).sub (JsNum.int 2)
      = Except.ok (JsNum.int ((N + k - 2 : Nat))) := by
    simp only [JsNum.sub, hval2]
    exact exact_ok _ (by omega) (by omega)
  have hle : (JsNum.int m).le (JsNum.int 30) = true := by
    simp only [JsNum.le, decide_eq_true_eq]
    exact hm
  unfold hostRange
  rw [hadd, bind_ok, hsub1, bind_ok, hle]
  simp only [if_true]
  rw [hadd1, bind_ok, bind_ok, hsub2, bind_ok]
  rfl

theorem withMask_low (v : Nat) (text : String) (part1 : List Char) (m : Int) (M k : Nat)
    (hv : v < 4294967296) (hmask : maskOf part1 = Except.ok (JsNum.int m, JsNum.int M))
    (hm0 : 0 ≤ m) (hm : m ≤ 30) (hM : M < 4294967296)
    (hsize : pow2 (JsNum.int (32 - m)) = Except.ok (JsNum.int k))
    (hk : 2 ≤ k) (hk2 : k ≤ 4294967296) :
    withMask (JsNum.int v) text part1
      = Except.ok {
          address := some text
          netmask := some (quadOf M)
          cidr := some (JsNum.int m)
          hostmask := some (long2ip (JsNum.int M).bnot)
          network := some (quadOf (v &&& M))
          «class» := classOf (JsNum.int v)
          broadcast := some (long2ip (JsNum.int (((v &&& M) + k - 1 : Nat))))
          size := some (JsNum.int k)
          first := some (long2ip (JsNum.int (((v &&& M) + 1 : Nat))))
          last := some (long2ip (JsNum.int (((v &&& M) + k - 2 : Nat)))) } := by
  have hnet := band_ushr_zero v (JsNum.int M) hv
  rw [toUint32_natCast M hM] at hnet
  have hland : v &&& M < 4294967296 := lt_of_le_of_lt Nat.and_le_left hv
  have hsub : (JsNum.int 32).sub (JsNum.int m) = Except.ok (JsNum.int (32 - m)) := by
    simp only [JsNum.sub]
    exact exact_ok _ (by omega) (by omega)
  unfold withMask
  rw [hmask, bind_ok]
  simp only [hnet, hsub, bind_ok, hsize, hostRange_low m (v &&& M) k hm hland hk hk2,
    long2ip_natCast M hM, long2ip_natCast (v &&& M) hland]
  rfl

/-- C12, amended: for an address of four octets 0–255 and a dotted mask of four octets 0–255
whose value is none of the 33 contiguous masks, the calculator applied to `address/mask`
does not fail: it returns a record with cidr 0, the netmask as supplied, the network address
equal to the address AND the mask, and size `2 ^ 32`. -/
theorem broken_mask_gives_cidr_zero (a b c d m1 m2 m3 m4 : Nat) (ha : a < 256) (hb : b < 256)
    (hc : c < 256) (hd : d < 256) (h1 : m1 < 256) (h2 : m2 < 256) (h3 : m3 < 256)
    (h4 : m4 < 256) (hM : quadValue m1 m2 m3 m4 ∉ contiguousMasks) :
    ∃ info,
      getAddressInformation (dottedQuad a b c d ++ "/" ++ dottedQuad m1 m2 m3 m4)
        = Except.ok (some info)
      ∧ info.address = some (dottedQuad a b c d)
      ∧ info.cidr = some (JsNum.int 0)
      ∧ info.netmask = some (dottedQuad m1 m2 m3 m4)
      ∧ info.network = some (quadOf (quadValue a b c d &&& quadValue m1 m2 m3 m4))
      ∧ info.size = some (JsNum.int ((2 ^ 32 : Nat))) := by
  have hv := quadValue_lt a b c d ha hb hc hd
  have hm := quadValue_lt m1 m2 m3 m4 h1 h2 h3 h4
  obtain ⟨mslash, _⟩ := dottedQuad_facts m1 m2 m3 m4 h1 h2 h3 h4
  have hcalc := calc_prefix a b c d (dottedQuad m1 m2 m3 m4) ha hb hc hd mslash
  have hwith := withMask_low (quadValue a b c d) (dottedQuad a b c d)
    (dottedQuad m1 m2 m3 m4).data 0 (quadValue m1 m2 m3 m4) (2 ^ 32) hv
    (maskOf_dotted m1 m2 m3 m4 h1 h2 h3 h4 hM) (le_refl 0) (by decide) hm (by decide)
    (by decide) (by decide)
  rw [hwith] at hcalc
  refine ⟨_, hcalc, rfl, rfl, ?_, rfl, rfl⟩
  exact congrArg some (quadOf_quadValue m1 m2 m3 m4 h1 h2 h3 h4)

theorem broken_mask_gives_cidr_zero_witness :
    (10 < 256 ∧ 0 < 256 ∧ 5 < 256 ∧ 255 < 256 ∧ quadValue 255 0 255 0 ∉ contiguousMasks)
    ∧ ∃ info, getAddressInformation "10.0.0.5/255.0.255.0" = Except.ok (some info)
        ∧ info.cidr = some (JsNum.int 0) ∧ info.netmask = some "255.0.255.0"
        ∧ info.size = some (JsNum.int ((2 ^ 32 : Nat))) := by
  obtain ⟨info, h, _, hcidr, hmask, _, hsize⟩ :=
    broken_mask_gives_cidr_zero 10 0 0 5 255 0 255 0 (by decide) (by decide) (by decide)
      (by decide) (by decide) (by decide) (by decide) (by decide) (by decide)
  exact ⟨by decide, info, h, hcidr, hmask, hsize⟩


/-! ## The class field on every accepted input -/

set_option maxRecDepth 100000 in
theorem maskOf_prefix :
    ∀ n < 33, maskOf (toString n).data
        = Except.ok (JsNum.int (n : Nat), JsNum.int (prefixMask n : Nat))
      ∧ prefixMask n < 4294967296
      ∧ (30 < n → prefixMask n + 2 ^ (32 - n) ≤ 4294967296) := by
  decide

theorem pow2_facts :
    ∀ n < 33, pow2 (JsNum.int (32 - (n : Nat))) = Except.ok (JsNum.int ((2 ^ (32 - n) : Nat)))
      ∧ 1 ≤ 2 ^ (32 - n) ∧ 2 ^ (32 - n) ≤ 4294967296 ∧ (n ≤ 30 → 2 ≤ 2 ^ (32 - n)) := by
  decide

theorem findMaskBits_result (M : Nat) (indices : List Nat) (h : ∀ i ∈ indices, i < 32) :
    ∃ i : Nat, i < 32 ∧ findMaskBits (JsNum.int M) indices = Except.ok (JsNum.int (i : Nat))
      ∧ (i = 0 ∨ canonicalMask (JsNum.int (i : Nat)) = Except.ok (JsNum.int M)) := by
  induction indices with
  | nil => exact ⟨0, by decide, rfl, Or.inl rfl⟩
  | cons j rest ih =>
    obtain ⟨n, _, hcanon⟩ := canonicalMask_contiguous j (h j (List.mem_cons_self _ _))
    by_cases heq : (M : Int) = (n : Int)
    · refine ⟨j, h j (List.mem_cons_self _ _), ?_, Or.inr (by rw [hcanon, heq])⟩
      unfold findMaskBits
      rw [hcanon, bind_ok]
      simp only [JsNum.eqNum, heq, decide_True, if_true]
      rfl
    · obtain ⟨i, hi, hfind, hor⟩ := ih fun k hk => h k (List.mem_cons_of_mem _ hk)
      refine ⟨i, hi, ?_, hor⟩
      unfold findMaskBits
      rw [hcanon, bind_ok]
      simp only [JsNum.eqNum, heq, decide_False, Bool.false_eq_true, if_false]
      exact hfind

theorem maskOf_dotted_any (m1 m2 m3 m4 : Nat) (h1 : m1 < 256) (h2 : m2 < 256) (h3 : m3 < 256)
    (h4 : m4 < 256) :
    ∃ i : Nat, i < 33
      ∧ maskOf (dottedQuad m1 m2 m3 m4).data
          = Except.ok (JsNum.int (i : Nat), JsNum.int (quadValue m1 m2 m3 m4))
      ∧ (30 < i → quadValue m1 m2 m3 m4 + 2 ^ (32 - i) ≤ 4294967296) := by
  obtain ⟨_, hdot⟩ := dottedQuad_facts m1 m2 m3 m4 h1 h2 h3 h4
  obtain ⟨i, hi, hfind, hor⟩ :=
    findMaskBits_result (quadValue m1 m2 m3 m4) (List.range 32) fun k hk => List.mem_range.mp hk
  refine ⟨i, by omega, ?_, ?_⟩
  · unfold maskOf
    rw [if_pos hdot, ip2long_dottedQuad m1 m2 m3 m4 h1 h2 h3 h4, bind_ok, hfind, bind_ok]
    rfl
  · intro h30
    have hi31 : i = 31 := by omega
    subst hi31
    rcases hor with h0 | hcanon
    · omega
    · have h31 : canonicalMask (JsNum.int ((31 : Nat))) = Except.ok (JsNum.int 4294967294) := by
        decide
      rw [h31] at hcanon
      have hval : (4294967294 : Int) = ((quadValue m1 m2 m3 m4 : Nat) : Int) :=
        JsNum.int.inj (Except.ok.inj hcanon)
      have hnat : quadValue m1 m2 m3 m4 = 4294967294 := by omega
      rw [hnat]
      decide

theorem withMask_returns (v : Nat) (text : String) (part1 : List Char) (n M : Nat)
    (hv : v < 4294967296)
    (hmask : maskOf part1 = Except.ok (JsNum.int (n : Nat), JsNum.int (M : Nat)))
    (hn : n < 33) (hM : M < 4294967296) (hfit : 30 < n → M + 2 ^ (32 - n) ≤ 4294967296) :
    ∃ info, withMask (JsNum.int v) text part1 = Except.ok info := by
  obtain ⟨hsize, hk1, hk2, hk3⟩ := pow2_facts n hn
  by_cases hlow : n ≤ 30
  · exact ⟨_, withMask_low v text part1 n M (2 ^ (32 - n)) hv hmask (by omega) (by omega) hM
      hsize (hk3 hlow) hk2⟩
  · have hand : v &&& M ≤ M := Nat.and_le_right
    have hfit2 := hfit (by omega)
    exact ⟨_, withMask_high v text part1 n M (2 ^ (32 - n)) hv hmask (by omega) (by omega) hM
      hsize hk1 (by omega)⟩

theorem suffix_returns (part0 rest : String) (v n M : Nat) (hv : v < 4294967296)
    (hslash : '/' ∉ part0.data)
    (hread : (if indexOf '.' part0.data > 0 then ip2long part0.data else parseInt part0.data)
      = Except.ok (JsNum.int v))
    (hrest : '/' ∉ rest.data)
    (hmask : maskOf rest.data = Except.ok (JsNum.int (n : Nat), JsNum.int (M : Nat)))
    (hn : n < 33) (hM : M < 4294967296) (hfit : 30 < n → M + 2 ^ (32 - n) ≤ 4294967296) :
    ∃ info, getAddressInformation (part0 ++ "/" ++ rest) = Except.ok (some info)
      ∧ info.«class» = classOfOctet (v / 16777216) := by
  obtain ⟨info, hinfo⟩ :=
    withMask_returns v (long2ip (JsNum.int v)) rest.data n M hv hmask hn hM hfit
  have hcalc := calc_with_suffix part0 rest _ hslash hread
  rw [split_absent _ _ hrest] at hcalc
  simp only [List.headD] at hcalc
  rw [hinfo] at hcalc
  exact ⟨info, hcalc, suffix_class part0 rest v info hv hslash hread hcalc⟩

theorem mask_text (suffix : String)
    (hsuffix : (∃ n, n ≤ 32 ∧ suffix = toString n)
      ∨ ∃ m1 m2 m3 m4, m1 < 256 ∧ m2 < 256 ∧ m3 < 256 ∧ m4 < 256
          ∧ suffix = dottedQuad m1 m2 m3 m4) :
    '/' ∉ suffix.data
    ∧ ∃ n M : Nat, maskOf suffix.data = Except.ok (JsNum.int (n : Nat), JsNum.int (M : Nat))
        ∧ n < 33 ∧ M < 4294967296 ∧ (30 < n → M + 2 ^ (32 - n) ≤ 4294967296) := by
  rcases hsuffix with ⟨n, hn, rfl⟩ | ⟨m1, m2, m3, m4, h1, h2, h3, h4, rfl⟩
  · obtain ⟨hmask, hM, hfit⟩ := maskOf_prefix n (by omega)
    exact ⟨(decimal_parse n (by omega)).1, n, prefixMask n, hmask, by omega, hM, hfit⟩
  · obtain ⟨i, hi, hmask, hfit⟩ := maskOf_dotted_any m1 m2 m3 m4 h1 h2 h3 h4
    exact ⟨(dottedQuad_facts m1 m2 m3 m4 h1 h2 h3 h4).1, i, quadValue m1 m2 m3 m4, hmask, hi,
      quadValue_lt m1 m2 m3 m4 h1 h2 h3 h4, hfit⟩

/-- C14, amended: for an address of four octets 0–255, given as a dotted quad or as the
decimal string of its value, followed by a slash and a prefix length from 0 to 32 or a dotted
mask of four octets 0–255, the calculator returns a record, and the class of that record is
decided by the first octet alone (A for 0–127, B for 128–191, C for 192–223, null above);
whatever text follows the slash, no returned record has another class; for the bare address
the calculator returns the record with the address field only, whose class is null. -/
theorem class_by_first_octet_with_mask (a b c d : Nat) (suffix : String) (ha : a < 256)
    (hb : b < 256) (hc : c < 256) (hd : d < 256)
    (hsuffix : (∃ n, n ≤ 32 ∧ suffix = toString n)
      ∨ ∃ m1 m2 m3 m4, m1 < 256 ∧ m2 < 256 ∧ m3 < 256 ∧ m4 < 256
          ∧ suffix = dottedQuad m1 m2 m3 m4) :
    (∃ info, getAddressInformation (dottedQuad a b c d ++ "/" ++ suffix)
          = Except.ok (some info) ∧ info.«class» = classOfOctet a)
    ∧ (∃ info, getAddressInformation (toString (quadValue a b c d) ++ "/" ++ suffix)
          = Except.ok (some info) ∧ info.«class» = classOfOctet a)
    ∧ (∀ rest info, getAddressInformation (dottedQuad a b c d ++ "/" ++ rest)
          = Except.ok (some info) → info.«class» = classOfOctet a)
    ∧ (∀ rest info, getAddressInformation (toString (quadValue a b c d) ++ "/" ++ rest)
          = Except.ok (some info) → info.«class» = classOfOctet a)
    ∧ getAddressInformation (dottedQuad a b c d)
        = Except.ok (some (addressOnly (dottedQuad a b c d)))
    ∧ getAddressInformation (toString (quadValue a b c d))
        = Except.ok (some (addressOnly (dottedQuad a b c d)))
    ∧ (addressOnly (dottedQuad a b c d)).«class» = none := by
  have hv := quadValue_lt a b c d ha hb hc hd
  have hfirst : quadValue a b c d / 16777216 = a := by unfold quadValue; omega
  obtain ⟨qslash, qne, qread, qtext⟩ := read_dottedQuad a b c d ha hb hc hd
  obtain ⟨dslash, dne, dread, dtext⟩ := read_decimal (quadValue a b c d) hv
  obtain ⟨hrest, n, M, hmask, hn, hM, hfit⟩ := mask_text suffix hsuffix
  refine ⟨?_, ?_, ?_, ?_, ?_, ?_, rfl⟩
  · obtain ⟨info, h, hclass⟩ :=
      suffix_returns _ suffix _ n M hv qslash qread hrest hmask hn hM hfit
    exact ⟨info, h, by rw [hclass, hfirst]⟩
  · obtain ⟨info, h, hclass⟩ :=
      suffix_returns _ suffix _ n M hv dslash dread hrest hmask hn hM hfit
    exact ⟨info, h, by rw [hclass, hfirst]⟩
  · intro rest info h
    rw [suffix_class _ rest _ info hv qslash qread h, hfirst]
  · intro rest info h
    rw [suffix_class _ rest _ info hv dslash dread h, hfirst]
  · rw [calc_bare _ _ qslash qne qread, qtext]
  · rw [calc_bare _ _ dslash dne dread, qtext]

theorem class_by_first_octet_with_mask_witness :
    (192 < 256 ∧ 168 < 256 ∧ 1 < 256 ∧ 10 < 256 ∧ 24 ≤ 32)
    ∧ dottedQuad 192 168 1 10 ++ "/" ++ toString 24 = "192.168.1.10/24"
    ∧ (∃ info, getAddressInformation (dottedQuad 192 168 1 10 ++ "/" ++ toString 24)
          = Except.ok (some info) ∧ info.«class» = classOfOctet 192)
    ∧ (∃ info, getAddressInformation (toString (quadValue 192 168 1 10) ++ "/" ++ toString 24)
          = Except.ok (some info) ∧ info.«class» = classOfOctet 192)
    ∧ getAddressInformation "192.168.1.10/255.255.255.0" = Except.ok (some record192)
    ∧ record192.«class» = classOfOctet 192
    ∧ getAddressInformation (dottedQuad 192 168 1 10)
        = Except.ok (some (addressOnly (dottedQuad 192 168 1 10))) :=
  have h := class_by_first_octet_with_mask 192 168 1 10 (toString 24) (by decide) (by decide)
    (by decide) (by decide) (Or.inl ⟨24, by decide, rfl⟩)
  ⟨by decide, by decide, h.1, h.2.1, by decide, h.2.2.1 "255.255.255.0" record192 (by decide),
    h.2.2.2.2.1⟩

end Discover
